import Mathlib

/-!
Verification development for the dicebox signaling server
(src/server.js, the state-storage-backed variant: session restore,
host migration with cleanup timers, admission control, relay).

The server state is embedded shallowly: the mutable JS maps
(`wsConnections`, `hostWsConnections`, `connectionsByIp`, `messageRates`,
`cleanupTimers`) and the pluggable stores (sessions, peers, rooms,
room-member sets) become function-typed fields of `ServerState`; each
WebSocket event handler becomes a pure transition returning the new state
plus the list of frames sent (destination connection id × payload).
Wall-clock reads (`Date.now()`) are passed in as a `now : Nat` argument and
the crypto-random id from `generatePeerId` as a `fresh : String` argument.
-/

namespace Dicebox

/-- `RATE_LIMIT.windowMs` in src/server.js. -/
def RATE_WINDOW_MS : Nat := 1000

/-- `RATE_LIMIT.maxMessages` in src/server.js. -/
def RATE_MAX_MESSAGES : Nat := 50

/-- `RATE_LIMIT.maxConnectionsPerIp` in src/server.js. -/
def MAX_CONNECTIONS_PER_IP : Nat := 10

/-- `ROOM_CLEANUP_DELAY` (grace period, ms) in src/server.js. -/
def ROOM_CLEANUP_DELAY : Nat := 30000

/-- Modelled from the spec: `SESSION_EXPIRY_SECONDS` is exported by the
`state-storage` module, which is not under src/. The spec only fixes that a
session "expires when `now − lastSeen` exceeds a fixed TTL", so the concrete
value is an arbitrary fixed constant here; no theorem depends on its value. -/
def SESSION_EXPIRY_SECONDS : Nat := 300

/-! ## Validators (src/server.js `isValidRoomId`, `isValidPeerId`,
`isValidSessionToken`). JS `string.length` counts UTF-16 code units; every
character admitted by these validators (ASCII and the BMP dice glyphs
U+2680–U+2685) is a single code unit, so `String.length` agrees. -/

/-- One of the six dice glyphs U+2680 … U+2685. -/
def isDiceChar (c : Char) : Bool :=
  0x2680 ≤ c.toNat && c.toNat ≤ 0x2685

/-- Character class of `/^[a-zA-Z0-9-_]+$/`. -/
def isRoomChar (c : Char) : Bool :=
  c.isAlpha || c.isDigit || c == '-' || c == '_'

/-- `isValidRoomId` on an actual string: dice glyph format (4–10 glyphs) or
legacy alphanumeric/hyphen/underscore format (4–32 chars). -/
def isValidRoomIdStr (s : String) : Bool :=
  (4 ≤ s.length && s.length ≤ 10 && s.toList.all isDiceChar) ||
  (4 ≤ s.length && s.length ≤ 32 && s.toList.all isRoomChar)

/-- `isValidRoomId`, with `none` standing for a missing / non-string
`roomId` field (the `typeof roomId !== 'string'` branch). -/
def isValidRoomId : Option String → Bool
  | none => false
  | some s => isValidRoomIdStr s

/-- Character class of `/^[a-f0-9-]{32,36}$/i`. -/
def isTokenChar (c : Char) : Bool :=
  c.isDigit || ('a' ≤ c && c ≤ 'f') || ('A' ≤ c && c ≤ 'F') || c == '-'

/-- `isValidSessionToken` on an actual string: 32–36 chars of `[a-f0-9-]`,
case-insensitive. -/
def isValidSessionTokenStr (s : String) : Bool :=
  32 ≤ s.length && s.length ≤ 36 && s.toList.all isTokenChar

/-- `isValidSessionToken`, `none` = missing / non-string token. -/
def isValidSessionToken : Option String → Bool
  | none => false
  | some s => isValidSessionTokenStr s

/-- Character class of `/^[a-f0-9]+$/`. -/
def isHexChar (c : Char) : Bool :=
  c.isDigit || ('a' ≤ c && c ≤ 'f')

/-- `isValidPeerId` on an actual string: exactly 32 lowercase-hex chars. -/
def isValidPeerIdStr (s : String) : Bool :=
  s.length == 32 && s.toList.all isHexChar

/-- `isValidPeerId`, `none` = missing / non-string target field. -/
def isValidPeerId : Option String → Bool
  | none => false
  | some s => isValidPeerIdStr s

/-! ## Rate limiting (src/server.js `checkRateLimit`) -/

/-- One `messageRates` entry: `{ count, windowStart }`. -/
structure RateData where
  count : Nat
  windowStart : Nat
deriving DecidableEq, Repr

/-- `checkRateLimit(peerId)`: fixed window, counter reset when stale; the
increment happens unconditionally and the message passes iff the new count
is within the cap. Returns the verdict together with the updated
`messageRates` map; `now` is the `Date.now()` read. -/
def checkRateLimit (rates : String → Option RateData) (peerId : String)
    (now : Nat) : Bool × (String → Option RateData) :=
  let rd : RateData :=
    match rates peerId with
    | some rd => if now - rd.windowStart > RATE_WINDOW_MS
                 then { count := 0, windowStart := now } else rd
    | none => { count := 0, windowStart := now }
  let rd' : RateData := { rd with count := rd.count + 1 }
  (rd'.count ≤ RATE_MAX_MESSAGES, fun q => if q = peerId then some rd' else rates q)

/-! ## Wire messages -/

/-- The three relayed signaling message types (`offer`/`answer`/`ice-candidate`). -/
inductive SigKind
  | offerK
  | answerK
  | iceK
deriving DecidableEq, Repr

/-- Inbound frames after JSON decoding. `invalidJson` is an unparseable
frame; `noType` a parsed frame whose `type` is missing or not a string.
String fields are `Option String` (`none` = missing / non-string).
`signal` carries a client-supplied `fromPeerId` (which the server must
never trust) and the rest of the envelope as an opaque `payload`. -/
inductive ClientMsg
  | invalidJson
  | noType
  | hello (sessionToken : Option String)
  | heartbeat
  | queryRoom (roomId : Option String)
  | registerHost (roomId : Option String)
  | claimHost (roomId : Option String)
  | joinRoom (roomId : Option String)
  | signal (k : SigKind) (targetPeerId : Option String)
      (clientFrom : Option String) (payload : String)
  | leaveRoom
  | unknown (t : String)
deriving DecidableEq, Repr

/-- Outbound frames. `relayMsg` is `{...message, fromPeerId}`: the original
type, target and opaque payload with the server-stamped sender identity. -/
inductive OutMsg
  | errorMsg (errorType reason : String)
  | peerIdNew (pid : String)
  | peerIdRestored (pid : String) (roomId : Option String)
  | heartbeatAck
  | roomInfoInvalid
  | roomInfoKnown (roomId : String) (hostPeerId : Option String)
  | roomInfoUnknown (roomId : String)
  | registerHostFailed (roomId : Option String) (reason : String)
  | registerHostSuccess (roomId : String)
  | claimHostFailed (roomId : Option String) (reason : String)
  | claimHostSuccess (roomId : String)
  | joinRoomFailed (roomId : Option String) (reason : String)
  | joinRoomSuccess (roomId : String) (hostPeerId : Option String)
  | peerConnecting (peerId : String)
  | relayMsg (k : SigKind) (targetPeerId : String) (payload : String)
      (fromPeerId : String)
  | hostDisconnected (roomId : String)
  | hostReconnected (roomId : String) (hostPeerId : String)
  | roomClosed (roomId : String) (reason : String)
deriving DecidableEq, Repr

/-! ## Server state -/

/-- Modelled from the spec: one Session Ledger record,
`sessionToken → {peerId, roomId, lastSeen}` (the `state-storage` module is
not under src/). -/
structure Session where
  peerId : String
  roomId : Option String
  lastSeen : Nat
deriving DecidableEq, Repr

/-- Modelled from the spec: one peer record in the store,
written by `storage.setPeer(peerId, {roomId, ip, sessionToken})`. Fields are
optional because `{ ...peer, roomId }` with an absent `peer` record spreads
`undefined`, leaving `ip`/`sessionToken` unset. -/
structure PeerRec where
  roomId : Option String
  ip : Option String
  sessionToken : Option String
deriving DecidableEq, Repr

/-- Modelled from the spec: one Room Directory record,
`roomId → {hostPeerId, createdAt}`; the member set is kept separately
(`addRoomMember`/`getRoomMembers`/`removeRoomMember`), and `setRoom` merges
fields into the record (host cleared, record persists). -/
structure Room where
  hostPeerId : Option String
  createdAt : Nat
deriving DecidableEq, Repr

/-- Per-connection handler state: the closure variables `peerId` and
`sessionToken` of the `ws` handlers, the client address, and whether the
socket is still open (`readyState === OPEN`; `ws.close()` clears it). -/
structure Conn where
  ip : String
  peerId : Option String
  sessionToken : Option String
  isOpen : Bool
deriving DecidableEq, Repr

/-- The whole mutable state of src/server.js. Connections are keyed by an
abstract connection id `Nat` (one per WebSocket object). -/
structure ServerState where
  /-- live WebSocket objects and their handler closures -/
  conns : Nat → Option Conn
  /-- `connectionsByIp : ip → Set of ws` (as a list of connection ids) -/
  connsByIp : String → List Nat
  /-- Session Ledger: `sessionToken → session` (spec-modelled store) -/
  sessions : String → Option Session
  /-- peer store: `peerId → record`; presence is `storage.hasPeer` -/
  peers : String → Option PeerRec
  /-- Room Directory: `roomId → room record` (spec-modelled store) -/
  rooms : String → Option Room
  /-- room member sets: `roomId → members` (host not included by `join-room`) -/
  members : String → List String
  /-- Transport Registry `wsConnections : peerId → ws` -/
  wsConn : String → Option Nat
  /-- `hostWsConnections : roomId → ws` -/
  hostWs : String → Option Nat
  /-- `cleanupTimers`: `true` iff a cleanup timer is pending (armed and not
  yet fired/cancelled); a fired or cancelled timer is no longer pending -/
  timers : String → Bool
  /-- `messageRates : peerId → {count, windowStart}` -/
  rates : String → Option RateData

/-- The state at process start: every map empty. -/
def initState : ServerState where
  conns := fun _ => none
  connsByIp := fun _ => []
  sessions := fun _ => none
  peers := fun _ => none
  rooms := fun _ => none
  members := fun _ => []
  wsConn := fun _ => none
  hostWs := fun _ => none
  timers := fun _ => false
  rates := fun _ => none

/-- Point update of a string-keyed map. -/
def updS {V : Type} (m : String → Option V) (k : String) (v : Option V) :
    String → Option V :=
  fun q => if q = k then v else m q

/-- Point update of a connection-keyed map. -/
def updC (m : Nat → Option Conn) (k : Nat) (v : Option Conn) :
    Nat → Option Conn :=
  fun q => if q = k then v else m q

/-- Point update of the member-set map. -/
def updM (m : String → List String) (k : String) (v : List String) :
    String → List String :=
  fun q => if q = k then v else m q

/-- Point update of the timer map. -/
def updT (m : String → Bool) (k : String) (v : Bool) : String → Bool :=
  fun q => if q = k then v else m q

/-- Point update of the per-IP connection list. -/
def updIp (m : String → List Nat) (k : String) (v : List Nat) :
    String → List Nat :=
  fun q => if q = k then v else m q

/-- `storage.hasPeer`: existence check in the peer store; `hasPeer` of a
null/absent id is `false` (spec-modelled store semantics). -/
def hasPeer (s : ServerState) : Option String → Bool
  | none => false
  | some p => (s.peers p).isSome

/-! ## Sending -/

/-- A frame on the wire: destination connection id and payload. -/
abbrev Send := Nat × OutMsg

/-- `sendTo(ws, message)`: delivered only while the socket is open. -/
def sendTo (s : ServerState) (c : Nat) (m : OutMsg) : List Send :=
  match s.conns c with
  | some cn => if cn.isOpen then [(c, m)] else []
  | none => []

/-- `sendTo` through a possibly-absent socket reference
(`sendTo(hostWsConnections.get(roomId), …)`). -/
def sendToOpt (s : ServerState) (c : Option Nat) (m : OutMsg) : List Send :=
  match c with
  | some c => sendTo s c m
  | none => []

/-- `sendToPeer(peerId, message)`: look the peer up in the Transport
Registry and send if registered. -/
def sendToPeer (s : ServerState) (p : String) (m : OutMsg) : List Send :=
  match s.wsConn p with
  | some c => sendTo s c m
  | none => []

/-- `sendError(ws, errorType, reason)`. -/
def sendError (s : ServerState) (c : Nat) (errorType reason : String) :
    List Send :=
  sendTo s c (.errorMsg errorType reason)

/-- Send one message to each peer of a list (the notification loops over
`getRoomMembers`). -/
def sendToEach (s : ServerState) (ps : List String) (m : OutMsg) : List Send :=
  match ps with
  | [] => []
  | p :: rest => sendToPeer s p m ++ sendToEach s rest m

/-! ## Store helper operations (spec-modelled `state-storage` contract) -/

/-- Modelled from the spec: `storage.updateSessionLastSeen(token)` — refresh
the session's `lastSeen` heartbeat if the session exists. -/
def refreshSession (s : ServerState) (tok : String) (now : Nat) : ServerState :=
  match s.sessions tok with
  | some ss => { s with sessions := updS s.sessions tok (some { ss with lastSeen := now }) }
  | none => s

/-- `updateSessionLastSeen` guarded by `if (sessionToken)`. -/
def refreshSessionO (s : ServerState) (tok : Option String) (now : Nat) : ServerState :=
  match tok with
  | some t => refreshSession s t now
  | none => s

/-- Modelled from the spec: `storage.updateSessionRoom(token, roomId)` —
bind/unbind the session's room if the session exists. -/
def updateSessionRoom (s : ServerState) (tok : Option String)
    (r : Option String) : ServerState :=
  match tok with
  | some t =>
    match s.sessions t with
    | some ss => { s with sessions := updS s.sessions t (some { ss with roomId := r }) }
    | none => s
  | none => s

/-- `{ ...peer, roomId }`: spread of a possibly-absent peer record with the
room overwritten. -/
def spreadPeer (pr : Option PeerRec) (r : Option String) : PeerRec :=
  match pr with
  | some q => { q with roomId := r }
  | none => { roomId := r, ip := none, sessionToken := none }

/-- Modelled from the spec: `storage.addRoomMember` — the member list is a
set: adding an already-listed peer is a no-op. -/
def addMember (l : List String) (p : String) : List String :=
  if p ∈ l then l else l ++ [p]

/-- `clearTimeout` + `cleanupTimers.delete(roomId)`: the timer for this room
is no longer pending. -/
def cancelCleanupTimer (s : ServerState) (rid : String) : ServerState :=
  { s with timers := updT s.timers rid false }

/-- `scheduleRoomCleanup(roomId)`: bail out if the room is gone, otherwise
replace any existing timer with a fresh pending one. -/
def scheduleRoomCleanup (s : ServerState) (rid : String) : ServerState :=
  if (s.rooms rid).isSome then { s with timers := updT s.timers rid true } else s

/-- `untrackConnection(ip, ws)` with the stored (possibly absent) peer IP;
an empty list and a deleted key are indistinguishable here. -/
def untrackIp (s : ServerState) (ipO : Option String) (c : Nat) : ServerState :=
  match ipO with
  | some ip => { s with connsByIp := updIp s.connsByIp ip ((s.connsByIp ip).filter (fun d => d != c)) }
  | none => s

/-! ## Per-message handlers (the `switch` in the ws 'message' handler).
Each takes the state after the rate check and heartbeat refresh. -/

/-- `case 'query-room'`. -/
def handleQueryRoom (s : ServerState) (c : Nat) (ridO : Option String) :
    ServerState × List Send :=
  match ridO with
  | some rid =>
    if isValidRoomIdStr rid then
      match s.rooms rid with
      | some rm => (s, sendTo s c (.roomInfoKnown rid rm.hostPeerId))
      | none => (s, sendTo s c (.roomInfoUnknown rid))
    else (s, sendTo s c .roomInfoInvalid)
  | none => (s, sendTo s c .roomInfoInvalid)

/-- `case 'register-host'`: fails iff a room record exists whose recorded
host is still in the peer store; on success clears any pending cleanup
timer, installs the caller as host and binds peer and session to the room. -/
def handleRegisterHost (s : ServerState) (c : Nat) (p : String)
    (tokO : Option String) (ridO : Option String) (now : Nat) :
    ServerState × List Send :=
  match ridO with
  | some rid =>
    if isValidRoomIdStr rid then
      let blocked : Bool :=
        match s.rooms rid with
        | some rm => hasPeer s rm.hostPeerId
        | none => false
      if blocked then
        (s, sendTo s c (.registerHostFailed (some rid) "Room already has a host"))
      else
        let s1 := cancelCleanupTimer s rid
        let s2 := { s1 with
          rooms := updS s1.rooms rid (some { hostPeerId := some p, createdAt := now }),
          hostWs := updS s1.hostWs rid (some c) }
        let s3 := { s2 with peers := updS s2.peers p (some (spreadPeer (s2.peers p) (some rid))) }
        let s4 := updateSessionRoom s3 tokO (some rid)
        (s4, sendTo s4 c (.registerHostSuccess rid))
    else (s, sendTo s c (.registerHostFailed (some rid) "Invalid room ID format"))
  | none => (s, sendTo s c (.registerHostFailed none "Invalid room ID format"))

/-- `case 'claim-host'`: claimable iff the room is absent or its recorded
host is not in the peer store; on success clears any pending cleanup timer
and installs the caller as host, keeping the original `createdAt`. -/
def handleClaimHost (s : ServerState) (c : Nat) (p : String)
    (tokO : Option String) (ridO : Option String) (now : Nat) :
    ServerState × List Send :=
  match ridO with
  | some rid =>
    if isValidRoomIdStr rid then
      let claimable : Bool :=
        match s.rooms rid with
        | some rm => !hasPeer s rm.hostPeerId
        | none => true
      if claimable then
        let created : Nat :=
          match s.rooms rid with
          | some rm => rm.createdAt
          | none => now
        let s1 := cancelCleanupTimer s rid
        let s2 := { s1 with
          rooms := updS s1.rooms rid (some { hostPeerId := some p, createdAt := created }),
          hostWs := updS s1.hostWs rid (some c) }
        let s3 := { s2 with peers := updS s2.peers p (some (spreadPeer (s2.peers p) (some rid))) }
        let s4 := updateSessionRoom s3 tokO (some rid)
        (s4, sendTo s4 c (.claimHostSuccess rid))
      else
        (s, sendTo s c (.claimHostFailed (some rid) "Room already has active host"))
    else (s, sendTo s c (.claimHostFailed (some rid) "Invalid room ID format"))
  | none => (s, sendTo s c (.claimHostFailed none "Invalid room ID format"))

/-- `case 'join-room'`: fails if the room is absent or its host is no longer
in the peer store; on success records membership, reports the host identity
to the caller and notifies the host's socket. -/
def handleJoinRoom (s : ServerState) (c : Nat) (p : String)
    (tokO : Option String) (ridO : Option String) : ServerState × List Send :=
  match ridO with
  | some rid =>
    if isValidRoomIdStr rid then
      match s.rooms rid with
      | none => (s, sendTo s c (.joinRoomFailed (some rid) "Room does not exist"))
      | some rm =>
        if hasPeer s rm.hostPeerId then
          let s1 := { s with peers := updS s.peers p (some (spreadPeer (s.peers p) (some rid))) }
          let s2 := { s1 with members := updM s1.members rid (addMember (s1.members rid) p) }
          let s3 := updateSessionRoom s2 tokO (some rid)
          (s3, sendTo s3 c (.joinRoomSuccess rid rm.hostPeerId) ++
                sendToOpt s3 (s3.hostWs rid) (.peerConnecting p))
        else (s, sendTo s c (.joinRoomFailed (some rid) "Room host is disconnected"))
    else (s, sendTo s c (.joinRoomFailed (some rid) "Invalid room ID format"))
  | none => (s, sendTo s c (.joinRoomFailed none "Invalid room ID format"))

/-- `case 'offer' / 'answer' / 'ice-candidate'`: validate the target id,
require the target in the peer store, then relay the envelope with
`fromPeerId` stamped from the server-side identity; the client-supplied
`fromPeerId` field is discarded. -/
def handleSignal (s : ServerState) (c : Nat) (p : String) (k : SigKind)
    (targetO : Option String) (payload : String) : ServerState × List Send :=
  match targetO with
  | some target =>
    if isValidPeerIdStr target then
      if hasPeer s (some target) then
        (s, sendToPeer s target (.relayMsg k target payload p))
      else (s, sendError s c "peer-not-found" "Target peer not found")
    else (s, sendError s c "invalid-peer" "Invalid target peer ID")
  | none => (s, sendError s c "invalid-peer" "Invalid target peer ID")

/-- `case 'leave-room'`: nothing at all happens unless the sender has a peer
record with a current room. A leaving host clears `hostPeerId` (record
persists), notifies all members and arms the cleanup timer; a leaving member
is only removed from the member set. Either way the peer's and session's
room binding is cleared. -/
def handleLeaveRoom (s : ServerState) (p : String)
    (tokO : Option String) : ServerState × List Send :=
  match s.peers p with
  | some pr =>
    match pr.roomId with
    | some rid =>
      let step1 : ServerState × List Send :=
        match s.rooms rid with
        | some rm =>
          if rm.hostPeerId = some p then
            let out := sendToEach s (s.members rid) (.hostDisconnected rid)
            let sA := { s with
              rooms := updS s.rooms rid (some { rm with hostPeerId := none }),
              hostWs := updS s.hostWs rid none }
            (scheduleRoomCleanup sA rid, out)
          else
            ({ s with members := updM s.members rid ((s.members rid).filter (fun q => q != p)) }, [])
        | none => (s, [])
      let s2 := { step1.1 with peers := updS step1.1.peers p (some { pr with roomId := none }) }
      (updateSessionRoom s2 tokO none, step1.2)
    | none => (s, [])
  | none => (s, [])

/-! ## Handshake (`hello`) -/

/-- Session restore (token known and fresh): refresh `lastSeen`, evict any
different stale transport registered for the identity, re-register the
transport and peer record, reply with the restored identity and last known
room, then reconcile room membership: re-add to members when not listed and
not the recorded host, and when the room is hostless re-install this
identity as host, cancel any pending cleanup timer and notify the current
member list that the host is back. -/
def helloRestore (s : ServerState) (c : Nat) (cn : Conn) (tok : String)
    (sess : Session) (now : Nat) : ServerState × List Send :=
  let p := sess.peerId
  let prevRoom := sess.roomId
  let s1 := refreshSession s tok now
  let s2 :=
    match s1.wsConn p with
    | some oldC =>
      if oldC ≠ c then
        match s1.conns oldC with
        | some ocn => { s1 with conns := updC s1.conns oldC (some { ocn with isOpen := false }) }
        | none => s1
      else s1
    | none => s1
  let s3 := { s2 with
    wsConn := updS s2.wsConn p (some c),
    peers := updS s2.peers p (some { roomId := prevRoom, ip := some cn.ip, sessionToken := some tok }),
    conns := updC s2.conns c (some { cn with peerId := some p, sessionToken := some tok }) }
  let out1 := sendTo s3 c (.peerIdRestored p prevRoom)
  match prevRoom with
  | some rid =>
    match s3.rooms rid with
    | some rm =>
      let s4 :=
        if p ∉ s3.members rid ∧ rm.hostPeerId ≠ some p then
          { s3 with members := updM s3.members rid (s3.members rid ++ [p]) }
        else s3
      if rm.hostPeerId = none then
        let s5 := { s4 with
          rooms := updS s4.rooms rid (some { rm with hostPeerId := some p }),
          hostWs := updS s4.hostWs rid (some c) }
        let s6 := cancelCleanupTimer s5 rid
        (s6, out1 ++ sendToEach s6 (s6.members rid) (.hostReconnected rid p))
      else (s4, out1)
    | none => (s3, out1)
  | none => (s3, out1)

/-- New session (token unknown or stale): mint a fresh identity, create the
session, register transport and peer record, reply `restored: false`. -/
def helloNew (s : ServerState) (c : Nat) (cn : Conn) (tok : String)
    (now : Nat) (fresh : String) : ServerState × List Send :=
  let s1 := { s with
    sessions := updS s.sessions tok (some { peerId := fresh, roomId := none, lastSeen := now }),
    wsConn := updS s.wsConn fresh (some c),
    peers := updS s.peers fresh (some { roomId := none, ip := some cn.ip, sessionToken := some tok }),
    conns := updC s.conns c (some { cn with peerId := some fresh, sessionToken := some tok }) }
  (s1, sendTo s1 c (.peerIdNew fresh))

/-- First message on a connection: must be `hello`. A token failing format
validation gets a structured error and the transport is closed (the conn
keeps the raw token, as the closure variable does); otherwise restore or
create the session depending on whether the token is known and fresh. -/
def handleHello (s : ServerState) (c : Nat) (cn : Conn)
    (tokO : Option String) (now : Nat) (fresh : String) :
    ServerState × List Send :=
  match tokO with
  | some tok =>
    if isValidSessionTokenStr tok then
      match s.sessions tok with
      | some sess =>
        if now - sess.lastSeen < SESSION_EXPIRY_SECONDS * 1000 then
          helloRestore s c cn tok sess now
        else helloNew s c cn tok now fresh
      | none => helloNew s c cn tok now fresh
    else
      let out := sendError s c "invalid-session" "Invalid session token format"
      ({ s with conns := updC s.conns c (some { cn with sessionToken := some tok, isOpen := false }) }, out)
  | none =>
    let out := sendError s c "invalid-session" "Invalid session token format"
    ({ s with conns := updC s.conns c (some { cn with sessionToken := none, isOpen := false }) }, out)

/-! ## The ws 'message' handler -/

/-- Routing of a message on an authenticated connection, after the rate
check and heartbeat refresh. `heartbeat` is acknowledged; `hello` (already
authenticated) and unknown types fall through to the silent default. -/
def routeActive (s : ServerState) (c : Nat) (p : String)
    (tokO : Option String) (m : ClientMsg) (now : Nat) :
    ServerState × List Send :=
  match m with
  | .heartbeat => (s, sendTo s c .heartbeatAck)
  | .queryRoom ridO => handleQueryRoom s c ridO
  | .registerHost ridO => handleRegisterHost s c p tokO ridO now
  | .claimHost ridO => handleClaimHost s c p tokO ridO now
  | .joinRoom ridO => handleJoinRoom s c p tokO ridO
  | .signal k targetO _ payload => handleSignal s c p k targetO payload
  | .leaveRoom => handleLeaveRoom s p tokO
  | _ => (s, [])

/-- The ws 'message' handler: JSON/type validation first; an
unauthenticated connection only accepts `hello`; once authenticated, the
rate check runs, then the session heartbeat refresh, then the switch. -/
def handleMessage (s : ServerState) (c : Nat) (m : ClientMsg) (now : Nat)
    (fresh : String) : ServerState × List Send :=
  match s.conns c with
  | none => (s, [])
  | some cn =>
    match m with
    | .invalidJson => (s, sendError s c "invalid-json" "Invalid JSON message")
    | .noType => (s, sendError s c "invalid-message" "Message must have a type")
    | m' =>
      match cn.peerId with
      | none =>
        match m' with
        | .hello tokO => handleHello s c cn tokO now fresh
        | _ => (s, sendError s c "protocol-error" "First message must be hello")
      | some p =>
        let rc := checkRateLimit s.rates p now
        let s1 := { s with rates := rc.2 }
        if rc.1 then
          let s2 := refreshSessionO s1 cn.sessionToken now
          routeActive s2 c p cn.sessionToken m' now
        else (s1, sendError s1 c "rate-limit" "Too many messages")

/-! ## Connection open / close and timers -/

/-- `wss.on('connection')`: reject (error + close, never tracked) when the
source address is at the cap, otherwise track the connection and wait for
`hello`. Connection ids are unique; a reused id is a no-op. -/
def handleConnect (s : ServerState) (c : Nat) (ip : String) :
    ServerState × List Send :=
  match s.conns c with
  | some _ => (s, [])
  | none =>
    if (s.connsByIp ip).length < MAX_CONNECTIONS_PER_IP then
      ({ s with
        conns := updC s.conns c (some { ip := ip, peerId := none, sessionToken := none, isOpen := true }),
        connsByIp := updIp s.connsByIp ip (s.connsByIp ip ++ [c]) }, [])
    else (s, [(c, .errorMsg "rate-limit" "Too many connections")])

/-- `ws.on('close')`: before `hello` only untrack the address. Otherwise,
if the stored peer record is in a room where this identity is the recorded
host, notify members, clear the host and arm the cleanup timer (a member's
membership is kept for reconnection); finally drop the rate entry, the
registry entry and the peer record. The socket is closed by the time the
handler runs. -/
def handleClose (s0 : ServerState) (c : Nat) : ServerState × List Send :=
  match s0.conns c with
  | none => (s0, [])
  | some cn0 =>
    let cn := { cn0 with isOpen := false }
    let s := { s0 with conns := updC s0.conns c (some cn) }
    match cn.peerId with
    | none =>
      ({ (untrackIp s (some cn.ip) c) with conns := updC s.conns c none }, [])
    | some p =>
      let step1 : ServerState × List Send :=
        match s.peers p with
        | some pr =>
          let sA := untrackIp s pr.ip c
          match pr.roomId with
          | some rid =>
            match sA.rooms rid with
            | some rm =>
              if rm.hostPeerId = some p then
                let out := sendToEach sA (sA.members rid) (.hostDisconnected rid)
                let sB := { sA with
                  rooms := updS sA.rooms rid (some { rm with hostPeerId := none }),
                  hostWs := updS sA.hostWs rid none }
                (scheduleRoomCleanup sB rid, out)
              else (sA, [])
            | none => (sA, [])
          | none => (sA, [])
        | none => (s, [])
      let s2 := { step1.1 with
        rates := updS step1.1.rates p none,
        wsConn := updS step1.1.wsConn p none,
        peers := updS step1.1.peers p none,
        conns := updC step1.1.conns c none }
      (s2, step1.2)

/-- The `setTimeout` callback of `scheduleRoomCleanup` firing (only a
pending timer can fire, and firing spends it): re-check that the room still
exists and is still hostless; if so notify every member that the room is
closing and delete the room record; if a host has reappeared or the room is
gone, do nothing. -/
def handleTimerFire (s0 : ServerState) (rid : String) : ServerState × List Send :=
  if s0.timers rid then
    let s := { s0 with timers := updT s0.timers rid false }
    match s.rooms rid with
    | some rm =>
      if rm.hostPeerId = none then
        let out := sendToEach s (s.members rid) (.roomClosed rid "Host did not return")
        ({ s with
          rooms := updS s.rooms rid none,
          members := updM s.members rid [],
          hostWs := updS s.hostWs rid none }, out)
      else (s, [])
    | none => (s, [])
  else (s0, [])

/-- One removal of the periodic expired-session sweep: drop a session whose
heartbeat is stale and remove the expired identity from its room's member
set. Modelled from the spec (the sweep body lives in `state-storage`, not
under src/): expiry is `now − lastSeen` reaching the fixed TTL, and the
sweep's per-session work is one atomic unit here. -/
def handleSessionSweep (s : ServerState) (tok : String) (now : Nat) :
    ServerState × List Send :=
  match s.sessions tok with
  | some ss =>
    if SESSION_EXPIRY_SECONDS * 1000 ≤ now - ss.lastSeen then
      let s1 := { s with sessions := updS s.sessions tok none }
      match ss.roomId with
      | some rid =>
        ({ s1 with members := updM s1.members rid ((s1.members rid).filter (fun q => q != ss.peerId)) }, [])
      | none => (s1, [])
    else (s, [])
  | none => (s, [])

/-- One removal of the periodic stale rate-entry sweep: drop a
`messageRates` entry idle for more than ten windows. -/
def handleRateSweep (s : ServerState) (p : String) (now : Nat) :
    ServerState × List Send :=
  match s.rates p with
  | some rd =>
    if RATE_WINDOW_MS * 10 < now - rd.windowStart then
      ({ s with rates := updS s.rates p none }, [])
    else (s, [])
  | none => (s, [])

/-! ## Events and reachability -/

/-- External events driving the server: a connection opening, an inbound
frame (with the `Date.now()` reading and the minted random id), a transport
close, a cleanup timer firing, and the periodic sweeps (one entry at a
time). -/
inductive Event
  | connect (c : Nat) (ip : String)
  | message (c : Nat) (m : ClientMsg) (now : Nat) (fresh : String)
  | closeConn (c : Nat)
  | timerFire (rid : String)
  | sessionSweep (tok : String) (now : Nat)
  | rateSweep (p : String) (now : Nat)

/-- One event-handler execution. -/
def step (s : ServerState) : Event → ServerState × List Send
  | .connect c ip => handleConnect s c ip
  | .message c m now fresh => handleMessage s c m now fresh
  | .closeConn c => handleClose s c
  | .timerFire rid => handleTimerFire s rid
  | .sessionSweep tok now => handleSessionSweep s tok now
  | .rateSweep p now => handleRateSweep s p now

/-- The states the server can be in: the empty start state and anything an
event can produce from a reachable state. -/
inductive Reachable : ServerState → Prop
  | init : Reachable initState
  | next {s : ServerState} (e : Event) : Reachable s → Reachable (step s e).1

/-- Run a list of events from a state, discarding outputs. -/
def runEvents (s : ServerState) : List Event → ServerState
  | [] => s
  | e :: es => runEvents (step s e).1 es

theorem runEvents_reachable (es : List Event) (s : ServerState)
    (hs : Reachable s) : Reachable (runEvents s es) := by
  induction es generalizing s with
  | nil => exact hs
  | cons e es ih => exact ih _ (Reachable.next e hs)

/-! ## Basic lemmas about sending -/

theorem mem_sendTo {s : ServerState} {c : Nat} {m : OutMsg} {q : Send}
    (h : q ∈ sendTo s c m) : q = (c, m) := by
  unfold sendTo at h
  split at h
  · split at h
    · simpa using h
    · simp at h
  · simp at h

theorem mem_sendToOpt {s : ServerState} {cO : Option Nat} {m : OutMsg} {q : Send}
    (h : q ∈ sendToOpt s cO m) : q.2 = m := by
  unfold sendToOpt at h
  split at h
  · have := mem_sendTo h; simp [this]
  · simp at h

theorem mem_sendToPeer {s : ServerState} {p : String} {m : OutMsg} {q : Send}
    (h : q ∈ sendToPeer s p m) : q.2 = m ∧ s.wsConn p = some q.1 := by
  unfold sendToPeer at h
  split at h
  next c hc => have := mem_sendTo h; simp [this, hc]
  · simp at h

theorem mem_sendToEach {s : ServerState} {ps : List String} {m : OutMsg} {q : Send}
    (h : q ∈ sendToEach s ps m) : q.2 = m := by
  induction ps with
  | nil => simp [sendToEach] at h
  | cons p rest ih =>
    simp only [sendToEach, List.mem_append] at h
    cases h with
    | inl h => exact (mem_sendToPeer h).1
    | inr h => exact ih h

theorem sendTo_isOpen {s : ServerState} {c : Nat} {cn : Conn} (m : OutMsg)
    (hc : s.conns c = some cn) (ho : cn.isOpen = true) :
    sendTo s c m = [(c, m)] := by
  unfold sendTo
  rw [hc]
  simp [ho]

theorem mem_sendToEach_of {s : ServerState} {ps : List String} (p : String)
    {cm : Nat} {cnm : Conn} (m : OutMsg) (hp : p ∈ ps)
    (hw : s.wsConn p = some cm) (hc : s.conns cm = some cnm)
    (ho : cnm.isOpen = true) : (cm, m) ∈ sendToEach s ps m := by
  induction ps with
  | nil => simp at hp
  | cons x rest ih =>
    simp only [sendToEach, List.mem_append]
    rcases List.mem_cons.mp hp with rfl | hrest
    · left
      simp only [sendToPeer, hw]
      rw [sendTo_isOpen m hc ho]
      simp
    · right; exact ih hrest

/-! ## Claim C6: rate limiting -/

/-- Run `checkRateLimit` for one identity over a list of `Date.now()`
readings, collecting the verdicts. -/
def simRate (rates : String → Option RateData) (p : String) :
    List Nat → List Bool × (String → Option RateData)
  | [] => ([], rates)
  | t :: ts =>
    let rc := checkRateLimit rates p t
    let rest := simRate rc.2 p ts
    (rc.1 :: rest.1, rest.2)

theorem simRate_inWindow (p : String) (t0 : Nat) :
    ∀ (ts : List Nat) (k : Nat) (rates : String → Option RateData),
      rates p = some { count := k, windowStart := t0 } →
      (∀ t ∈ ts, t - t0 ≤ RATE_WINDOW_MS) →
      (simRate rates p ts).1 =
        (List.range ts.length).map (fun i => decide (k + i + 1 ≤ RATE_MAX_MESSAGES)) := by
  intro ts
  induction ts with
  | nil => intro k rates _ _; simp [simRate]
  | cons t ts ih =>
    intro k rates hr hin
    have hwin : ¬ (t - t0 > RATE_WINDOW_MS) := by
      have := hin t (by simp)
      omega
    have hstep : checkRateLimit rates p t =
        (decide (k + 1 ≤ RATE_MAX_MESSAGES),
         fun q => if q = p then some { count := k + 1, windowStart := t0 } else rates q) := by
      unfold checkRateLimit
      rw [hr]
      simp [hwin]
    have hrec := ih (k + 1)
      (fun q => if q = p then some { count := k + 1, windowStart := t0 } else rates q)
      (by simp) (fun t ht => hin t (by simp [ht]))
    have harith : ((fun i => decide (k + i + 1 ≤ RATE_MAX_MESSAGES)) ∘ Nat.succ) =
        (fun i => decide (k + 1 + i + 1 ≤ RATE_MAX_MESSAGES)) := by
      funext i
      simp only [Function.comp_apply, Nat.succ_eq_add_one]
      have h1 : k + (i + 1) + 1 = k + 1 + i + 1 := by omega
      rw [h1]
    simp only [simRate, hstep, hrec, List.length_cons, List.range_succ_eq_map,
      List.map_cons, List.map_map, harith]

/-- Claim C6, rate limiting, in three parts.
First: starting with no rate entry for the identity, a first message at
`t0` followed by any further messages all landing inside the window started
at `t0` yields exactly the verdicts "the i-th message passes iff i ≤ N"
(so messages 1..N pass and message N+1 is rejected, N = `RATE_MAX_MESSAGES`).
Second: a rate-rejected message on an authenticated connection produces
exactly one structured `rate-limit` error reply and leaves every
connection — in particular the sender's, still open — untouched, and the
rest of the state unchanged except the rate counter itself.
Third: once `now − windowStart` exceeds the window, the counter resets and
the message passes. -/
theorem c6_rate_limiting :
    (∀ (rates : String → Option RateData) (p : String) (t0 : Nat) (ts : List Nat),
      rates p = none →
      (∀ t ∈ ts, t - t0 ≤ RATE_WINDOW_MS) →
      (simRate rates p (t0 :: ts)).1 =
        (List.range (ts.length + 1)).map (fun i => decide (i + 1 ≤ RATE_MAX_MESSAGES))) ∧
    (∀ (s : ServerState) (c : Nat) (cn : Conn) (p : String) (m : ClientMsg)
        (now : Nat) (fresh : String),
      s.conns c = some cn → cn.peerId = some p → cn.isOpen = true →
      m ≠ ClientMsg.invalidJson → m ≠ ClientMsg.noType →
      (checkRateLimit s.rates p now).1 = false →
      (handleMessage s c m now fresh).2 =
          [(c, OutMsg.errorMsg "rate-limit" "Too many messages")] ∧
        (handleMessage s c m now fresh).1.conns = s.conns ∧
        (handleMessage s c m now fresh).1.rooms = s.rooms ∧
        (handleMessage s c m now fresh).1.sessions = s.sessions ∧
        (handleMessage s c m now fresh).1.members = s.members) ∧
    (∀ (rates : String → Option RateData) (p : String) (rd : RateData) (now : Nat),
      rates p = some rd → now - rd.windowStart > RATE_WINDOW_MS →
      (checkRateLimit rates p now).1 = true) := by
  refine ⟨?_, ?_, ?_⟩
  · intro rates p t0 ts hnone hin
    have hstep : checkRateLimit rates p t0 =
        (decide (0 + 1 ≤ RATE_MAX_MESSAGES),
         fun q => if q = p then some { count := 1, windowStart := t0 } else rates q) := by
      unfold checkRateLimit
      rw [hnone]
    have hrec := simRate_inWindow p t0 ts 1
      (fun q => if q = p then some { count := 1, windowStart := t0 } else rates q)
      (by simp) hin
    have harith : ((fun i => decide (i + 1 ≤ RATE_MAX_MESSAGES)) ∘ Nat.succ) =
        (fun i => decide (1 + i + 1 ≤ RATE_MAX_MESSAGES)) := by
      funext i
      simp only [Function.comp_apply, Nat.succ_eq_add_one]
      have h1 : i + 1 + 1 = 1 + i + 1 := by omega
      rw [h1]
    simp only [simRate, hstep, hrec, List.range_succ_eq_map, List.map_cons,
      List.map_map, List.length_cons, harith]
  · intro s c cn p m now fresh hc hp ho hm1 hm2 hrate
    cases m <;> simp_all [handleMessage, sendError, sendTo]
  · intro rates p rd now hr hstale
    unfold checkRateLimit
    rw [hr]
    simp [hstale, RATE_MAX_MESSAGES]

/-- Witness for `c6_rate_limiting`: a concrete run — no prior entry, 51
messages inside one window starting at time 100 — passes the first 50 and
rejects the 51st, and a later message at time 1200 (window elapsed) passes. -/
theorem c6_rate_limiting_witness :
    ((fun _ => none : String → Option RateData) "p" = none) ∧
    (simRate (fun _ => none) "p" (100 :: List.replicate 50 200)).1 =
      (List.range 51).map (fun i => decide (i + 1 ≤ RATE_MAX_MESSAGES)) ∧
    (checkRateLimit (fun q => if q = "p" then some { count := 51, windowStart := 100 } else none)
      "p" 1200).1 = true := by
  refine ⟨rfl, ?_, ?_⟩
  · exact c6_rate_limiting.1 (fun _ => none) "p" 100 (List.replicate 50 200) rfl
      (by intro t ht; simp [List.eq_of_mem_replicate ht, RATE_WINDOW_MS])
  · exact c6_rate_limiting.2.2 _ "p" { count := 51, windowStart := 100 } 1200
      (by simp) (by simp [RATE_WINDOW_MS])

/-! ## Frame lemmas: which state components each store helper leaves alone -/

@[simp] theorem refreshSession_conns (s : ServerState) (t : String) (now : Nat) :
    (refreshSession s t now).conns = s.conns := by
  unfold refreshSession; split <;> rfl

@[simp] theorem refreshSession_connsByIp (s : ServerState) (t : String) (now : Nat) :
    (refreshSession s t now).connsByIp = s.connsByIp := by
  unfold refreshSession; split <;> rfl

@[simp] theorem refreshSession_peers (s : ServerState) (t : String) (now : Nat) :
    (refreshSession s t now).peers = s.peers := by
  unfold refreshSession; split <;> rfl

@[simp] theorem refreshSession_rooms (s : ServerState) (t : String) (now : Nat) :
    (refreshSession s t now).rooms = s.rooms := by
  unfold refreshSession; split <;> rfl

@[simp] theorem refreshSession_members (s : ServerState) (t : String) (now : Nat) :
    (refreshSession s t now).members = s.members := by
  unfold refreshSession; split <;> rfl

@[simp] theorem refreshSession_wsConn (s : ServerState) (t : String) (now : Nat) :
    (refreshSession s t now).wsConn = s.wsConn := by
  unfold refreshSession; split <;> rfl

@[simp] theorem refreshSession_hostWs (s : ServerState) (t : String) (now : Nat) :
    (refreshSession s t now).hostWs = s.hostWs := by
  unfold refreshSession; split <;> rfl

@[simp] theorem refreshSession_timers (s : ServerState) (t : String) (now : Nat) :
    (refreshSession s t now).timers = s.timers := by
  unfold refreshSession; split <;> rfl

@[simp] theorem refreshSession_rates (s : ServerState) (t : String) (now : Nat) :
    (refreshSession s t now).rates = s.rates := by
  unfold refreshSession; split <;> rfl

@[simp] theorem refreshSessionO_conns (s : ServerState) (tokO : Option String) (now : Nat) :
    (refreshSessionO s tokO now).conns = s.conns := by
  cases tokO <;> simp [refreshSessionO]

@[simp] theorem refreshSessionO_connsByIp (s : ServerState) (tokO : Option String) (now : Nat) :
    (refreshSessionO s tokO now).connsByIp = s.connsByIp := by
  cases tokO <;> simp [refreshSessionO]

@[simp] theorem refreshSessionO_peers (s : ServerState) (tokO : Option String) (now : Nat) :
    (refreshSessionO s tokO now).peers = s.peers := by
  cases tokO <;> simp [refreshSessionO]

@[simp] theorem refreshSessionO_rooms (s : ServerState) (tokO : Option String) (now : Nat) :
    (refreshSessionO s tokO now).rooms = s.rooms := by
  cases tokO <;> simp [refreshSessionO]

@[simp] theorem refreshSessionO_members (s : ServerState) (tokO : Option String) (now : Nat) :
    (refreshSessionO s tokO now).members = s.members := by
  cases tokO <;> simp [refreshSessionO]

@[simp] theorem refreshSessionO_wsConn (s : ServerState) (tokO : Option String) (now : Nat) :
    (refreshSessionO s tokO now).wsConn = s.wsConn := by
  cases tokO <;> simp [refreshSessionO]

@[simp] theorem refreshSessionO_hostWs (s : ServerState) (tokO : Option String) (now : Nat) :
    (refreshSessionO s tokO now).hostWs = s.hostWs := by
  cases tokO <;> simp [refreshSessionO]

@[simp] theorem refreshSessionO_timers (s : ServerState) (tokO : Option String) (now : Nat) :
    (refreshSessionO s tokO now).timers = s.timers := by
  cases tokO <;> simp [refreshSessionO]

@[simp] theorem refreshSessionO_rates (s : ServerState) (tokO : Option String) (now : Nat) :
    (refreshSessionO s tokO now).rates = s.rates := by
  cases tokO <;> simp [refreshSessionO]

@[simp] theorem updateSessionRoom_conns (s : ServerState) (tokO : Option String) (r : Option String) :
    (updateSessionRoom s tokO r).conns = s.conns := by
  cases tokO
  · rfl
  · unfold updateSessionRoom
    split <;> first | rfl | (split <;> rfl)

@[simp] theorem updateSessionRoom_connsByIp (s : ServerState) (tokO : Option String) (r : Option String) :
    (updateSessionRoom s tokO r).connsByIp = s.connsByIp := by
  cases tokO
  · rfl
  · unfold updateSessionRoom
    split <;> first | rfl | (split <;> rfl)

@[simp] theorem updateSessionRoom_peers (s : ServerState) (tokO : Option String) (r : Option String) :
    (updateSessionRoom s tokO r).peers = s.peers := by
  cases tokO
  · rfl
  · unfold updateSessionRoom
    split <;> first | rfl | (split <;> rfl)

@[simp] theorem updateSessionRoom_rooms (s : ServerState) (tokO : Option String) (r : Option String) :
    (updateSessionRoom s tokO r).rooms = s.rooms := by
  cases tokO
  · rfl
  · unfold updateSessionRoom
    split <;> first | rfl | (split <;> rfl)

@[simp] theorem updateSessionRoom_members (s : ServerState) (tokO : Option String) (r : Option String) :
    (updateSessionRoom s tokO r).members = s.members := by
  cases tokO
  · rfl
  · unfold updateSessionRoom
    split <;> first | rfl | (split <;> rfl)

@[simp] theorem updateSessionRoom_wsConn (s : ServerState) (tokO : Option String) (r : Option String) :
    (updateSessionRoom s tokO r).wsConn = s.wsConn := by
  cases tokO
  · rfl
  · unfold updateSessionRoom
    split <;> first | rfl | (split <;> rfl)

@[simp] theorem updateSessionRoom_hostWs (s : ServerState) (tokO : Option String) (r : Option String) :
    (updateSessionRoom s tokO r).hostWs = s.hostWs := by
  cases tokO
  · rfl
  · unfold updateSessionRoom
    split <;> first | rfl | (split <;> rfl)

@[simp] theorem updateSessionRoom_timers (s : ServerState) (tokO : Option String) (r : Option String) :
    (updateSessionRoom s tokO r).timers = s.timers := by
  cases tokO
  · rfl
  · unfold updateSessionRoom
    split <;> first | rfl | (split <;> rfl)

@[simp] theorem updateSessionRoom_rates (s : ServerState) (tokO : Option String) (r : Option String) :
    (updateSessionRoom s tokO r).rates = s.rates := by
  cases tokO
  · rfl
  · unfold updateSessionRoom
    split <;> first | rfl | (split <;> rfl)

@[simp] theorem cancelCleanupTimer_conns (s : ServerState) (rid : String) :
    (cancelCleanupTimer s rid).conns = s.conns := rfl

@[simp] theorem cancelCleanupTimer_connsByIp (s : ServerState) (rid : String) :
    (cancelCleanupTimer s rid).connsByIp = s.connsByIp := rfl

@[simp] theorem cancelCleanupTimer_peers (s : ServerState) (rid : String) :
    (cancelCleanupTimer s rid).peers = s.peers := rfl

@[simp] theorem cancelCleanupTimer_rooms (s : ServerState) (rid : String) :
    (cancelCleanupTimer s rid).rooms = s.rooms := rfl

@[simp] theorem cancelCleanupTimer_members (s : ServerState) (rid : String) :
    (cancelCleanupTimer s rid).members = s.members := rfl

@[simp] theorem cancelCleanupTimer_wsConn (s : ServerState) (rid : String) :
    (cancelCleanupTimer s rid).wsConn = s.wsConn := rfl

@[simp] theorem cancelCleanupTimer_hostWs (s : ServerState) (rid : String) :
    (cancelCleanupTimer s rid).hostWs = s.hostWs := rfl

@[simp] theorem cancelCleanupTimer_rates (s : ServerState) (rid : String) :
    (cancelCleanupTimer s rid).rates = s.rates := rfl

@[simp] theorem scheduleRoomCleanup_conns (s : ServerState) (rid : String) :
    (scheduleRoomCleanup s rid).conns = s.conns := by
  unfold scheduleRoomCleanup; split <;> rfl

@[simp] theorem scheduleRoomCleanup_connsByIp (s : ServerState) (rid : String) :
    (scheduleRoomCleanup s rid).connsByIp = s.connsByIp := by
  unfold scheduleRoomCleanup; split <;> rfl

@[simp] theorem scheduleRoomCleanup_peers (s : ServerState) (rid : String) :
    (scheduleRoomCleanup s rid).peers = s.peers := by
  unfold scheduleRoomCleanup; split <;> rfl

@[simp] theorem scheduleRoomCleanup_rooms (s : ServerState) (rid : String) :
    (scheduleRoomCleanup s rid).rooms = s.rooms := by
  unfold scheduleRoomCleanup; split <;> rfl

@[simp] theorem scheduleRoomCleanup_members (s : ServerState) (rid : String) :
    (scheduleRoomCleanup s rid).members = s.members := by
  unfold scheduleRoomCleanup; split <;> rfl

@[simp] theorem scheduleRoomCleanup_wsConn (s : ServerState) (rid : String) :
    (scheduleRoomCleanup s rid).wsConn = s.wsConn := by
  unfold scheduleRoomCleanup; split <;> rfl

@[simp] theorem scheduleRoomCleanup_hostWs (s : ServerState) (rid : String) :
    (scheduleRoomCleanup s rid).hostWs = s.hostWs := by
  unfold scheduleRoomCleanup; split <;> rfl

@[simp] theorem scheduleRoomCleanup_rates (s : ServerState) (rid : String) :
    (scheduleRoomCleanup s rid).rates = s.rates := by
  unfold scheduleRoomCleanup; split <;> rfl

@[simp] theorem untrackIp_conns (s : ServerState) (ipO : Option String) (c : Nat) :
    (untrackIp s ipO c).conns = s.conns := by
  cases ipO <;> rfl

@[simp] theorem untrackIp_peers (s : ServerState) (ipO : Option String) (c : Nat) :
    (untrackIp s ipO c).peers = s.peers := by
  cases ipO <;> rfl

@[simp] theorem untrackIp_rooms (s : ServerState) (ipO : Option String) (c : Nat) :
    (untrackIp s ipO c).rooms = s.rooms := by
  cases ipO <;> rfl

@[simp] theorem untrackIp_members (s : ServerState) (ipO : Option String) (c : Nat) :
    (untrackIp s ipO c).members = s.members := by
  cases ipO <;> rfl

@[simp] theorem untrackIp_wsConn (s : ServerState) (ipO : Option String) (c : Nat) :
    (untrackIp s ipO c).wsConn = s.wsConn := by
  cases ipO <;> rfl

@[simp] theorem untrackIp_hostWs (s : ServerState) (ipO : Option String) (c : Nat) :
    (untrackIp s ipO c).hostWs = s.hostWs := by
  cases ipO <;> rfl

@[simp] theorem untrackIp_timers (s : ServerState) (ipO : Option String) (c : Nat) :
    (untrackIp s ipO c).timers = s.timers := by
  cases ipO <;> rfl

@[simp] theorem untrackIp_rates (s : ServerState) (ipO : Option String) (c : Nat) :
    (untrackIp s ipO c).rates = s.rates := by
  cases ipO <;> rfl

@[simp] theorem cancelCleanupTimer_sessions (s : ServerState) (rid : String) :
    (cancelCleanupTimer s rid).sessions = s.sessions := rfl

@[simp] theorem scheduleRoomCleanup_sessions (s : ServerState) (rid : String) :
    (scheduleRoomCleanup s rid).sessions = s.sessions := by
  unfold scheduleRoomCleanup; split <;> rfl

@[simp] theorem untrackIp_sessions (s : ServerState) (ipO : Option String) (c : Nat) :
    (untrackIp s ipO c).sessions = s.sessions := by
  cases ipO <;> rfl

theorem cancelCleanupTimer_timers (s : ServerState) (rid : String) :
    (cancelCleanupTimer s rid).timers = updT s.timers rid false := rfl

theorem hasPeer_eq_of_peers {s1 s2 : ServerState} (h : s1.peers = s2.peers) :
    hasPeer s1 = hasPeer s2 := by
  funext x
  cases x <;> simp [hasPeer, h]

@[simp] theorem updS_same {V : Type} (m : String → Option V) (k : String) (v : Option V) :
    updS m k v k = v := by
  simp [updS]

theorem updS_other {V : Type} (m : String → Option V) (k : String) (v : Option V)
    {q : String} (h : q ≠ k) : updS m k v q = m q := by
  simp [updS, h]

@[simp] theorem updT_same (m : String → Bool) (k : String) (v : Bool) :
    updT m k v k = v := by
  simp [updT]

theorem updT_other (m : String → Bool) (k : String) (v : Bool)
    {q : String} (h : q ≠ k) : updT m k v q = m q := by
  simp [updT, h]

@[simp] theorem updM_same (m : String → List String) (k : String) (v : List String) :
    updM m k v k = v := by
  simp [updM]

theorem updM_other (m : String → List String) (k : String) (v : List String)
    {q : String} (h : q ≠ k) : updM m k v q = m q := by
  simp [updM, h]

@[simp] theorem updC_same (m : Nat → Option Conn) (k : Nat) (v : Option Conn) :
    updC m k v k = v := by
  simp [updC]

theorem updC_other (m : Nat → Option Conn) (k : Nat) (v : Option Conn)
    {q : Nat} (h : q ≠ k) : updC m k v q = m q := by
  simp [updC, h]

/-! ## Claim C2: host-slot success condition -/

/-- The blocking condition shared by `register-host` and `claim-host`: a
room record exists and its recorded host is still in the peer store. -/
def roomHostLive (s : ServerState) (rid : String) : Bool :=
  match s.rooms rid with
  | some rm => hasPeer s rm.hostPeerId
  | none => false

/-- The success condition as the claim states it: no room record exists, or
the recorded `hostPeerId` does not resolve to a live peer. -/
def hostFree (s : ServerState) (rid : String) : Prop :=
  s.rooms rid = none ∨ ∃ rm, s.rooms rid = some rm ∧ hasPeer s rm.hostPeerId = false

theorem hostFree_iff (s : ServerState) (rid : String) :
    hostFree s rid ↔ roomHostLive s rid = false := by
  unfold hostFree roomHostLive
  split
  next rm hrm => simp [hrm]
  next hrm => simp [hrm]

theorem roomHostLive_congr {s1 s2 : ServerState} (h1 : s1.rooms = s2.rooms)
    (h2 : s1.peers = s2.peers) : roomHostLive s1 = roomHostLive s2 := by
  funext rid
  unfold roomHostLive
  rw [h1, hasPeer_eq_of_peers h2]

theorem sendTo_congr {s1 s2 : ServerState} (h : s1.conns = s2.conns) :
    sendTo s1 = sendTo s2 := by
  funext c m
  unfold sendTo
  rw [h]

/-- Once authenticated and within the rate budget, a message is routed from
the state with the rate counter bumped and the session heartbeat
refreshed. -/
theorem handleMessage_active (s : ServerState) (c : Nat) (cn : Conn) (p : String)
    (m : ClientMsg) (now : Nat) (fresh : String)
    (hc : s.conns c = some cn) (hp : cn.peerId = some p)
    (hm1 : m ≠ ClientMsg.invalidJson) (hm2 : m ≠ ClientMsg.noType)
    (hrate : (checkRateLimit s.rates p now).1 = true) :
    handleMessage s c m now fresh =
      routeActive (refreshSessionO { s with rates := (checkRateLimit s.rates p now).2 }
        cn.sessionToken now) c p cn.sessionToken m now := by
  cases m <;> simp_all [handleMessage]

theorem handleClaimHost_success (s : ServerState) (c : Nat) (p : String)
    (tokO : Option String) (rid : String) (now : Nat)
    (hvalid : isValidRoomIdStr rid = true)
    (hfree : roomHostLive s rid = false) :
    (∃ rm', (handleClaimHost s c p tokO (some rid) now).1.rooms rid = some rm' ∧
      rm'.hostPeerId = some p) ∧
    (handleClaimHost s c p tokO (some rid) now).1.timers rid = false ∧
    (handleClaimHost s c p tokO (some rid) now).1.conns = s.conns ∧
    (handleClaimHost s c p tokO (some rid) now).2 =
      sendTo s c (.claimHostSuccess rid) := by
  have hclaimable : (match s.rooms rid with
      | some rm => !hasPeer s rm.hostPeerId
      | none => true) = true := by
    unfold roomHostLive at hfree
    split <;> simp_all
  have hrooms : (handleClaimHost s c p tokO (some rid) now).1.rooms rid =
      some { hostPeerId := some p,
             createdAt := match s.rooms rid with
                          | some rm => rm.createdAt
                          | none => now } := by
    simp [handleClaimHost, hvalid, hclaimable]
  refine ⟨⟨_, hrooms, rfl⟩, ?_, ?_, ?_⟩
  · simp [handleClaimHost, hvalid, hclaimable, cancelCleanupTimer_timers]
  · simp [handleClaimHost, hvalid, hclaimable]
  · simp only [handleClaimHost, hvalid, hclaimable, if_true]
    exact congrFun (congrFun (sendTo_congr (by simp)) c) _

theorem handleClaimHost_blocked (s : ServerState) (c : Nat) (p : String)
    (tokO : Option String) (rid : String) (now : Nat)
    (hvalid : isValidRoomIdStr rid = true)
    (hlive : roomHostLive s rid = true) :
    handleClaimHost s c p tokO (some rid) now =
      (s, sendTo s c (.claimHostFailed (some rid) "Room already has active host")) := by
  have hclaimable : (match s.rooms rid with
      | some rm => !hasPeer s rm.hostPeerId
      | none => true) = false := by
    unfold roomHostLive at hlive
    split <;> simp_all
  simp [handleClaimHost, hvalid, hclaimable]

theorem handleRegisterHost_success (s : ServerState) (c : Nat) (p : String)
    (tokO : Option String) (rid : String) (now : Nat)
    (hvalid : isValidRoomIdStr rid = true)
    (hfree : roomHostLive s rid = false) :
    (∃ rm', (handleRegisterHost s c p tokO (some rid) now).1.rooms rid = some rm' ∧
      rm'.hostPeerId = some p) ∧
    (handleRegisterHost s c p tokO (some rid) now).1.timers rid = false ∧
    (handleRegisterHost s c p tokO (some rid) now).2 =
      sendTo s c (.registerHostSuccess rid) := by
  have hblocked : (match s.rooms rid with
      | some rm => hasPeer s rm.hostPeerId
      | none => false) = false := by
    unfold roomHostLive at hfree
    split <;> simp_all
  have hrooms : (handleRegisterHost s c p tokO (some rid) now).1.rooms rid =
      some { hostPeerId := some p, createdAt := now } := by
    simp [handleRegisterHost, hvalid, hblocked]
  refine ⟨⟨_, hrooms, rfl⟩, ?_, ?_⟩
  · simp [handleRegisterHost, hvalid, hblocked, cancelCleanupTimer_timers]
  · simp only [handleRegisterHost, hvalid, hblocked, if_false, Bool.false_eq_true]
    exact congrFun (congrFun (sendTo_congr (by simp)) c) _

theorem handleRegisterHost_blocked (s : ServerState) (c : Nat) (p : String)
    (tokO : Option String) (rid : String) (now : Nat)
    (hvalid : isValidRoomIdStr rid = true)
    (hlive : roomHostLive s rid = true) :
    handleRegisterHost s c p tokO (some rid) now =
      (s, sendTo s c (.registerHostFailed (some rid) "Room already has a host")) := by
  have hblocked : (match s.rooms rid with
      | some rm => hasPeer s rm.hostPeerId
      | none => false) = true := by
    unfold roomHostLive at hlive
    split <;> simp_all
  simp [handleRegisterHost, hvalid, hblocked]

/-- Claim C2: for a `claim-host` request with a valid room id from an
authenticated, open, rate-admitted connection, the request succeeds —
`claim-host-success` emitted, caller installed as `hostPeerId`, pending
cleanup timer for the room cancelled — if and only if no room record exists
or the recorded host does not resolve to a live peer; otherwise the only
reply is `claim-host-failed` with reason "Room already has active host" and
the room directory is untouched. The success condition coincides with
`register-host`'s. -/
theorem c2_claim_host_success_condition (s : ServerState) (c : Nat) (cn : Conn)
    (p : String) (rid : String) (now : Nat) (fresh : String)
    (hc : s.conns c = some cn) (hp : cn.peerId = some p) (ho : cn.isOpen = true)
    (hvalid : isValidRoomIdStr rid = true)
    (hrate : (checkRateLimit s.rates p now).1 = true) :
    (((c, OutMsg.claimHostSuccess rid) ∈
        (handleMessage s c (ClientMsg.claimHost (some rid)) now fresh).2) ↔
      hostFree s rid) ∧
    (hostFree s rid →
      (∃ rm', (handleMessage s c (ClientMsg.claimHost (some rid)) now fresh).1.rooms rid =
          some rm' ∧ rm'.hostPeerId = some p) ∧
      (handleMessage s c (ClientMsg.claimHost (some rid)) now fresh).1.timers rid = false ∧
      (handleMessage s c (ClientMsg.claimHost (some rid)) now fresh).2 =
        [(c, OutMsg.claimHostSuccess rid)]) ∧
    (¬ hostFree s rid →
      (handleMessage s c (ClientMsg.claimHost (some rid)) now fresh).2 =
        [(c, OutMsg.claimHostFailed (some rid) "Room already has active host")] ∧
      (handleMessage s c (ClientMsg.claimHost (some rid)) now fresh).1.rooms = s.rooms) ∧
    (((c, OutMsg.registerHostSuccess rid) ∈
        (handleMessage s c (ClientMsg.registerHost (some rid)) now fresh).2) ↔
      hostFree s rid) := by
  have hact1 := handleMessage_active s c cn p (ClientMsg.claimHost (some rid)) now fresh
    hc hp (by simp) (by simp) hrate
  have hact2 := handleMessage_active s c cn p (ClientMsg.registerHost (some rid)) now fresh
    hc hp (by simp) (by simp) hrate
  rw [hact1, hact2]
  simp only [routeActive]
  have h2rooms : (refreshSessionO { s with rates := (checkRateLimit s.rates p now).2 }
      cn.sessionToken now).rooms = s.rooms := by simp
  have h2peers : (refreshSessionO { s with rates := (checkRateLimit s.rates p now).2 }
      cn.sessionToken now).peers = s.peers := by simp
  have h2conns : (refreshSessionO { s with rates := (checkRateLimit s.rates p now).2 }
      cn.sessionToken now).conns = s.conns := by simp
  have hcless : roomHostLive (refreshSessionO { s with rates := (checkRateLimit s.rates p now).2 }
      cn.sessionToken now) rid = roomHostLive s rid := by
    rw [roomHostLive_congr h2rooms h2peers]
  have hc2 : (refreshSessionO { s with rates := (checkRateLimit s.rates p now).2 }
      cn.sessionToken now).conns c = some cn := by rw [h2conns]; exact hc
  cases hRHL : roomHostLive s rid with
  | false =>
    have hfree : hostFree s rid := (hostFree_iff s rid).mpr hRHL
    obtain ⟨⟨rm', hrm', hhost⟩, htim, hconns2, hout⟩ :=
      handleClaimHost_success _ c p cn.sessionToken rid now hvalid (hcless.trans hRHL)
    obtain ⟨⟨rmr', hrmr', hhostr⟩, _, houtr⟩ :=
      handleRegisterHost_success _ c p cn.sessionToken rid now hvalid (hcless.trans hRHL)
    have houtlist : (handleClaimHost (refreshSessionO
        { s with rates := (checkRateLimit s.rates p now).2 } cn.sessionToken now)
        c p cn.sessionToken (some rid) now).2 = [(c, OutMsg.claimHostSuccess rid)] := by
      rw [hout, sendTo_isOpen _ hc2 ho]
    have houtlistr : (handleRegisterHost (refreshSessionO
        { s with rates := (checkRateLimit s.rates p now).2 } cn.sessionToken now)
        c p cn.sessionToken (some rid) now).2 = [(c, OutMsg.registerHostSuccess rid)] := by
      rw [houtr, sendTo_isOpen _ hc2 ho]
    refine ⟨?_, fun _ => ⟨⟨rm', hrm', hhost⟩, htim, houtlist⟩, fun hn => absurd hfree hn, ?_⟩
    · rw [houtlist]; simp [hfree]
    · rw [houtlistr]; simp [hfree]
  | true =>
    have hnfree : ¬ hostFree s rid := by
      rw [hostFree_iff, hRHL]; simp
    have hblk := handleClaimHost_blocked _ c p cn.sessionToken rid now hvalid (hcless.trans hRHL)
    have hblkr := handleRegisterHost_blocked _ c p cn.sessionToken rid now hvalid (hcless.trans hRHL)
    rw [hblk, hblkr]
    have hfail : sendTo (refreshSessionO { s with rates := (checkRateLimit s.rates p now).2 }
        cn.sessionToken now) c (OutMsg.claimHostFailed (some rid) "Room already has active host") =
        [(c, OutMsg.claimHostFailed (some rid) "Room already has active host")] :=
      sendTo_isOpen _ hc2 ho
    have hfailr : sendTo (refreshSessionO { s with rates := (checkRateLimit s.rates p now).2 }
        cn.sessionToken now) c (OutMsg.registerHostFailed (some rid) "Room already has a host") =
        [(c, OutMsg.registerHostFailed (some rid) "Room already has a host")] :=
      sendTo_isOpen _ hc2 ho
    refine ⟨?_, fun hf => absurd hf hnfree, fun _ => ⟨by rw [hfail], h2rooms⟩, ?_⟩
    · rw [hfail]; simp [hnfree]
    · rw [hfailr]; simp [hnfree]

/-- A 32-hex-char peer identity used by concrete scenarios. -/
def demoPeerId : String := "0123456789abcdef0123456789abcdef"

/-- A second 32-hex-char peer identity. -/
def demoPeerId2 : String := "fedcba9876543210fedcba9876543210"

/-- A well-formed session token. -/
def demoToken : String := "aaaabbbbccccddddeeeeffff00001111"

/-- A second well-formed session token. -/
def demoToken2 : String := "22223333444455556666777788889999"

/-- Concrete state for the C2 witness: one authenticated open connection,
no rooms. -/
def c2State : ServerState :=
  { initState with
    conns := updC initState.conns 1
      (some { ip := "ip", peerId := some demoPeerId, sessionToken := some demoToken, isOpen := true }),
    wsConn := updS initState.wsConn demoPeerId (some 1),
    peers := updS initState.peers demoPeerId
      (some { roomId := none, ip := some "ip", sessionToken := some demoToken }) }

/-- Witness for `c2_claim_host_success_condition` at a concrete state with
no record for room "abcd1234": the claim succeeds. -/
theorem c2_claim_host_success_condition_witness :
    isValidRoomIdStr "abcd1234" = true ∧ hostFree c2State "abcd1234" ∧
    (1, OutMsg.claimHostSuccess "abcd1234") ∈
      (handleMessage c2State 1 (ClientMsg.claimHost (some "abcd1234")) 5 "").2 := by
  have h := c2_claim_host_success_condition c2State 1
    { ip := "ip", peerId := some demoPeerId, sessionToken := some demoToken, isOpen := true }
    demoPeerId "abcd1234" 5 "" (by decide) rfl rfl (by decide) (by decide)
  exact ⟨by decide, Or.inl rfl, h.1.mpr (Or.inl rfl)⟩

/-! ## Claim C5: relay correctness -/

/-- Claim C5: an `offer`/`answer`/`ice-candidate` with a format-valid target
naming a live peer, sent by an authenticated rate-admitted peer `p`, is
relayed exactly to the target's registered open transport — and to nothing
else — stamped with the server-side sender identity; the client-supplied
`fromPeerId` (`clientFrom`, universally quantified here) is never used, and
no state component changes apart from the rate counter and the heartbeat
refresh. -/
theorem c5_relay_correctness (s : ServerState) (c : Nat) (cn : Conn) (p : String)
    (k : SigKind) (target : String) (clientFrom : Option String) (payload : String)
    (now : Nat) (fresh : String) (cB : Nat) (cnB : Conn)
    (hc : s.conns c = some cn) (hp : cn.peerId = some p)
    (hvalid : isValidPeerIdStr target = true)
    (hlive : hasPeer s (some target) = true)
    (hwB : s.wsConn target = some cB)
    (hcB : s.conns cB = some cnB) (hoB : cnB.isOpen = true)
    (hrate : (checkRateLimit s.rates p now).1 = true) :
    (handleMessage s c (ClientMsg.signal k (some target) clientFrom payload) now fresh).2 =
      [(cB, OutMsg.relayMsg k target payload p)] ∧
    (∀ q ∈ (handleMessage s c (ClientMsg.signal k (some target) clientFrom payload) now fresh).2,
      q.1 = cB) ∧
    (handleMessage s c (ClientMsg.signal k (some target) clientFrom payload) now fresh).1.rooms =
      s.rooms ∧
    (handleMessage s c (ClientMsg.signal k (some target) clientFrom payload) now fresh).1.members =
      s.members ∧
    (handleMessage s c (ClientMsg.signal k (some target) clientFrom payload) now fresh).1.conns =
      s.conns := by
  have hact := handleMessage_active s c cn p
    (ClientMsg.signal k (some target) clientFrom payload) now fresh
    hc hp (by simp) (by simp) hrate
  rw [hact]
  simp only [routeActive]
  have h2peers : (refreshSessionO { s with rates := (checkRateLimit s.rates p now).2 }
      cn.sessionToken now).peers = s.peers := by simp
  have h2wsConn : (refreshSessionO { s with rates := (checkRateLimit s.rates p now).2 }
      cn.sessionToken now).wsConn = s.wsConn := by simp
  have h2conns : (refreshSessionO { s with rates := (checkRateLimit s.rates p now).2 }
      cn.sessionToken now).conns = s.conns := by simp
  have hlive2 : hasPeer (refreshSessionO { s with rates := (checkRateLimit s.rates p now).2 }
      cn.sessionToken now) (some target) = true := by
    rw [hasPeer_eq_of_peers h2peers]; exact hlive
  have hout : (handleSignal (refreshSessionO { s with rates := (checkRateLimit s.rates p now).2 }
      cn.sessionToken now) c p k (some target) payload).2 =
      [(cB, OutMsg.relayMsg k target payload p)] := by
    simp only [handleSignal, hvalid, hlive2, if_true, sendToPeer, h2wsConn, hwB]
    rw [sendTo_congr h2conns, sendTo_isOpen _ hcB hoB]
  have hstate : (handleSignal (refreshSessionO { s with rates := (checkRateLimit s.rates p now).2 }
      cn.sessionToken now) c p k (some target) payload).1 =
      refreshSessionO { s with rates := (checkRateLimit s.rates p now).2 } cn.sessionToken now := by
    simp [handleSignal, hvalid, hlive2]
  refine ⟨hout, ?_, ?_, ?_, ?_⟩
  · intro q hq
    rw [hout] at hq
    simp at hq
    simp [hq]
  · rw [hstate]; simp
  · rw [hstate]; simp
  · rw [hstate]; simp

/-- Concrete state for the C5 witness: sender on connection 1, target
`demoPeerId2` live on connection 2, a bystander on connection 3. -/
def c5State : ServerState :=
  { initState with
    conns := fun c =>
      if c = 1 then some { ip := "ip1", peerId := some demoPeerId, sessionToken := some demoToken, isOpen := true }
      else if c = 2 then some { ip := "ip2", peerId := some demoPeerId2, sessionToken := some demoToken2, isOpen := true }
      else if c = 3 then some { ip := "ip3", peerId := some "00000000000000000000000000000000", sessionToken := none, isOpen := true }
      else none,
    wsConn := fun q =>
      if q = demoPeerId then some 1
      else if q = demoPeerId2 then some 2
      else if q = "00000000000000000000000000000000" then some 3
      else none,
    peers := fun q =>
      if q = demoPeerId then some { roomId := none, ip := some "ip1", sessionToken := some demoToken }
      else if q = demoPeerId2 then some { roomId := none, ip := some "ip2", sessionToken := some demoToken2 }
      else if q = "00000000000000000000000000000000" then some { roomId := none, ip := some "ip3", sessionToken := none }
      else none }

/-- Witness for `c5_relay_correctness`: a concrete offer from `demoPeerId`
to `demoPeerId2` (with a forged client `fromPeerId`) is delivered exactly to
connection 2, stamped with the real sender; connection 3 receives nothing. -/
theorem c5_relay_correctness_witness :
    (handleMessage c5State 1
      (ClientMsg.signal SigKind.offerK (some demoPeerId2) (some "forged") "sdp-offer") 7 "").2 =
      [(2, OutMsg.relayMsg SigKind.offerK demoPeerId2 "sdp-offer" demoPeerId)] ∧
    ∀ q ∈ (handleMessage c5State 1
      (ClientMsg.signal SigKind.offerK (some demoPeerId2) (some "forged") "sdp-offer") 7 "").2,
      q.1 ≠ 3 := by
  have h := c5_relay_correctness c5State 1
    { ip := "ip1", peerId := some demoPeerId, sessionToken := some demoToken, isOpen := true }
    demoPeerId SigKind.offerK demoPeerId2 (some "forged") "sdp-offer" 7 "" 2
    { ip := "ip2", peerId := some demoPeerId2, sessionToken := some demoToken2, isOpen := true }
    rfl rfl (by decide) (by decide) (by decide) rfl rfl (by decide)
  refine ⟨h.1, ?_⟩
  intro q hq
  have := h.2.1 q hq
  omega

/-! ## Claim C7: leave-room idempotence -/

theorem handleLeaveRoom_noop (s : ServerState) (p : String) (tokO : Option String)
    (h : s.peers p = none ∨ ∃ pr, s.peers p = some pr ∧ pr.roomId = none) :
    handleLeaveRoom s p tokO = (s, []) := by
  rcases h with h | ⟨pr, hpr, hrid⟩
  · simp [handleLeaveRoom, h]
  · simp [handleLeaveRoom, hpr, hrid]

theorem handleLeaveRoom_clears (s : ServerState) (p : String) (tokO : Option String) :
    ∀ pr', (handleLeaveRoom s p tokO).1.peers p = some pr' → pr'.roomId = none := by
  intro pr' h
  cases hpr : s.peers p with
  | none =>
    rw [handleLeaveRoom_noop s p tokO (Or.inl hpr)] at h
    rw [hpr] at h
    cases h
  | some pr =>
    cases hrid : pr.roomId with
    | none =>
      rw [handleLeaveRoom_noop s p tokO (Or.inr ⟨pr, hpr, hrid⟩)] at h
      rw [hpr] at h
      cases h
      exact hrid
    | some rid =>
      unfold handleLeaveRoom at h
      rw [hpr] at h
      simp only [hrid] at h
      simp only [updateSessionRoom_peers] at h
      simp only [updS_same] at h
      cases h
      rfl

/-- Claim C7: `leave-room` is idempotent. A `leave-room` from an
authenticated rate-admitted peer that is not currently in a room (no peer
record, or a record with no bound room — in particular one who already
left) produces no reply of any kind, and changes nothing in the room
directory, member sets, peer store, connections, transport registry, host
sockets or timers; and after any `leave-room`, the sender's peer record has
no bound room, so a repeated `leave-room` lands in that no-op case. -/
theorem c7_leave_room_idempotent :
    (∀ (s : ServerState) (c : Nat) (cn : Conn) (p : String) (now : Nat) (fresh : String),
      s.conns c = some cn → cn.peerId = some p →
      (checkRateLimit s.rates p now).1 = true →
      (s.peers p = none ∨ ∃ pr, s.peers p = some pr ∧ pr.roomId = none) →
      (handleMessage s c ClientMsg.leaveRoom now fresh).2 = [] ∧
      (handleMessage s c ClientMsg.leaveRoom now fresh).1.rooms = s.rooms ∧
      (handleMessage s c ClientMsg.leaveRoom now fresh).1.members = s.members ∧
      (handleMessage s c ClientMsg.leaveRoom now fresh).1.peers = s.peers ∧
      (handleMessage s c ClientMsg.leaveRoom now fresh).1.conns = s.conns ∧
      (handleMessage s c ClientMsg.leaveRoom now fresh).1.wsConn = s.wsConn ∧
      (handleMessage s c ClientMsg.leaveRoom now fresh).1.hostWs = s.hostWs ∧
      (handleMessage s c ClientMsg.leaveRoom now fresh).1.timers = s.timers) ∧
    (∀ (s : ServerState) (c : Nat) (cn : Conn) (p : String) (now : Nat) (fresh : String)
        (pr' : PeerRec),
      s.conns c = some cn → cn.peerId = some p →
      (checkRateLimit s.rates p now).1 = true →
      (handleMessage s c ClientMsg.leaveRoom now fresh).1.peers p = some pr' →
      pr'.roomId = none) := by
  constructor
  · intro s c cn p now fresh hc hp hrate hnotin
    have hact := handleMessage_active s c cn p ClientMsg.leaveRoom now fresh
      hc hp (by simp) (by simp) hrate
    rw [hact]
    simp only [routeActive]
    have hnotin2 : (refreshSessionO { s with rates := (checkRateLimit s.rates p now).2 }
        cn.sessionToken now).peers p = none ∨
        ∃ pr, (refreshSessionO { s with rates := (checkRateLimit s.rates p now).2 }
          cn.sessionToken now).peers p = some pr ∧ pr.roomId = none := by
      simpa using hnotin
    rw [handleLeaveRoom_noop _ p cn.sessionToken hnotin2]
    simp
  · intro s c cn p now fresh pr' hc hp hrate h
    have hact := handleMessage_active s c cn p ClientMsg.leaveRoom now fresh
      hc hp (by simp) (by simp) hrate
    rw [hact] at h
    simp only [routeActive] at h
    exact handleLeaveRoom_clears _ p cn.sessionToken pr' h

/-- Witness for `c7_leave_room_idempotent`: at `c2State` the peer is in no
room; its `leave-room` produces no output and leaves the member sets as
they were. -/
theorem c7_leave_room_idempotent_witness :
    (handleMessage c2State 1 ClientMsg.leaveRoom 5 "").2 = [] ∧
    (handleMessage c2State 1 ClientMsg.leaveRoom 5 "").1.members = c2State.members := by
  have h := c7_leave_room_idempotent.1 c2State 1
    { ip := "ip", peerId := some demoPeerId, sessionToken := some demoToken, isOpen := true }
    demoPeerId 5 "" rfl rfl (by decide) (Or.inr ⟨_, rfl, rfl⟩)
  exact ⟨h.1, h.2.2.1⟩

/-! ## Claim C8: error taxonomy at the connection -/

/-- Claim C8, in four parts, all on an open connection. A handshake whose
session token fails format validation gets a structured `invalid-session`
error and the transport is closed. Malformed JSON gets a structured
`invalid-json` error with the whole state untouched; a message without a
string `type` likewise gets `invalid-message`; and any non-`hello` first
message on an unauthenticated connection gets `protocol-error` — in all
three of those cases the connection stays open (the state, connections
included, is returned unchanged). -/
theorem c8_error_taxonomy :
    (∀ (s : ServerState) (c : Nat) (cn : Conn) (tokO : Option String)
        (now : Nat) (fresh : String),
      s.conns c = some cn → cn.peerId = none → cn.isOpen = true →
      isValidSessionToken tokO = false →
      (handleMessage s c (ClientMsg.hello tokO) now fresh).2 =
        [(c, OutMsg.errorMsg "invalid-session" "Invalid session token format")] ∧
      ∃ cn', (handleMessage s c (ClientMsg.hello tokO) now fresh).1.conns c = some cn' ∧
        cn'.isOpen = false) ∧
    (∀ (s : ServerState) (c : Nat) (cn : Conn) (now : Nat) (fresh : String),
      s.conns c = some cn → cn.isOpen = true →
      handleMessage s c ClientMsg.invalidJson now fresh =
        (s, [(c, OutMsg.errorMsg "invalid-json" "Invalid JSON message")])) ∧
    (∀ (s : ServerState) (c : Nat) (cn : Conn) (now : Nat) (fresh : String),
      s.conns c = some cn → cn.isOpen = true →
      handleMessage s c ClientMsg.noType now fresh =
        (s, [(c, OutMsg.errorMsg "invalid-message" "Message must have a type")])) ∧
    (∀ (s : ServerState) (c : Nat) (cn : Conn) (m : ClientMsg) (now : Nat) (fresh : String),
      s.conns c = some cn → cn.peerId = none → cn.isOpen = true →
      (∀ tokO, m ≠ ClientMsg.hello tokO) → m ≠ ClientMsg.invalidJson → m ≠ ClientMsg.noType →
      handleMessage s c m now fresh =
        (s, [(c, OutMsg.errorMsg "protocol-error" "First message must be hello")])) := by
  refine ⟨?_, ?_, ?_, ?_⟩
  · intro s c cn tokO now fresh hc hp ho htok
    cases tokO with
    | none =>
      constructor
      · simp [handleMessage, hc, hp, handleHello, sendError, sendTo_isOpen _ hc ho]
      · refine ⟨{ ip := cn.ip, peerId := none, sessionToken := none, isOpen := false }, ?_, rfl⟩
        simp [handleMessage, hc, hp, handleHello]
    | some tok =>
      have htok' : isValidSessionTokenStr tok = false := by simpa [isValidSessionToken] using htok
      constructor
      · simp [handleMessage, hc, hp, handleHello, htok', sendError, sendTo_isOpen _ hc ho]
      · refine ⟨{ ip := cn.ip, peerId := none, sessionToken := some tok, isOpen := false }, ?_, rfl⟩
        simp [handleMessage, hc, hp, handleHello, htok']
  · intro s c cn now fresh hc ho
    simp [handleMessage, hc, sendError, sendTo_isOpen _ hc ho]
  · intro s c cn now fresh hc ho
    simp [handleMessage, hc, sendError, sendTo_isOpen _ hc ho]
  · intro s c cn m now fresh hc hp ho hhello hj hn
    cases m <;>
      first
      | exact absurd rfl hj
      | exact absurd rfl hn
      | exact absurd rfl (hhello _)
      | simp [handleMessage, hc, hp, sendError, sendTo_isOpen _ hc ho]

/-- Concrete state for the C8 witness: one open unauthenticated connection. -/
def c8State : ServerState :=
  { initState with
    conns := updC initState.conns 1
      (some { ip := "ip", peerId := none, sessionToken := none, isOpen := true }) }

/-- Witness for `c8_error_taxonomy`: a malformed token ("zz") at handshake
on the concrete state gets the structured error and the transport closes,
while a malformed-JSON frame leaves the state untouched. -/
theorem c8_error_taxonomy_witness :
    isValidSessionToken (some "zz") = false ∧
    (handleMessage c8State 1 (ClientMsg.hello (some "zz")) 0 "").2 =
      [(1, OutMsg.errorMsg "invalid-session" "Invalid session token format")] ∧
    (∃ cn', (handleMessage c8State 1 (ClientMsg.hello (some "zz")) 0 "").1.conns 1 = some cn' ∧
      cn'.isOpen = false) ∧
    handleMessage c8State 1 ClientMsg.invalidJson 0 "" =
      (c8State, [(1, OutMsg.errorMsg "invalid-json" "Invalid JSON message")]) := by
  have h1 := c8_error_taxonomy.1 c8State 1
    { ip := "ip", peerId := none, sessionToken := none, isOpen := true }
    (some "zz") 0 "" rfl rfl rfl (by decide)
  have h2 := c8_error_taxonomy.2.1 c8State 1
    { ip := "ip", peerId := none, sessionToken := none, isOpen := true }
    0 "" rfl rfl
  exact ⟨by decide, h1.1, h1.2, h2⟩

/-! ## Claim C9: heartbeat-by-message -/

theorem updateSessionRoom_lastSeen (s : ServerState) (tokO : Option String)
    (r : Option String) (tok : String) (ss' : Session)
    (h : s.sessions tok = some ss') :
    ∃ ss'', (updateSessionRoom s tokO r).sessions tok = some ss'' ∧
      ss''.lastSeen = ss'.lastSeen := by
  cases tokO with
  | none => exact ⟨ss', h, rfl⟩
  | some t =>
    unfold updateSessionRoom
    cases hst : s.sessions t with
    | none => simp only [hst]; exact ⟨ss', h, rfl⟩
    | some ss0 =>
      simp only [hst]
      by_cases htk : tok = t
      · subst htk
        rw [h] at hst
        cases hst
        refine ⟨{ ss' with roomId := r }, ?_, rfl⟩
        simp [updS]
      · exact ⟨ss', by simpa [updS, htk] using h, rfl⟩

theorem handleQueryRoom_state (s : ServerState) (c : Nat) (ridO : Option String) :
    (handleQueryRoom s c ridO).1 = s := by
  unfold handleQueryRoom
  repeat' split
  all_goals rfl

theorem handleSignal_state (s : ServerState) (c : Nat) (p : String) (k : SigKind)
    (targetO : Option String) (payload : String) :
    (handleSignal s c p k targetO payload).1 = s := by
  unfold handleSignal
  repeat' split
  all_goals rfl

theorem handleRegisterHost_sessions (s : ServerState) (c : Nat) (p : String)
    (tokO : Option String) (ridO : Option String) (now : Nat) (tok : String)
    (ss' : Session) (h : s.sessions tok = some ss') :
    ∃ ss'', (handleRegisterHost s c p tokO ridO now).1.sessions tok = some ss'' ∧
      ss''.lastSeen = ss'.lastSeen := by
  unfold handleRegisterHost
  dsimp only
  repeat' split
  all_goals first
    | exact ⟨ss', h, rfl⟩
    | exact updateSessionRoom_lastSeen _ tokO _ tok ss' h
    | exact updateSessionRoom_lastSeen _ tokO _ tok ss' (by simpa using h)

theorem handleClaimHost_sessions (s : ServerState) (c : Nat) (p : String)
    (tokO : Option String) (ridO : Option String) (now : Nat) (tok : String)
    (ss' : Session) (h : s.sessions tok = some ss') :
    ∃ ss'', (handleClaimHost s c p tokO ridO now).1.sessions tok = some ss'' ∧
      ss''.lastSeen = ss'.lastSeen := by
  unfold handleClaimHost
  dsimp only
  repeat' split
  all_goals first
    | exact ⟨ss', h, rfl⟩
    | exact updateSessionRoom_lastSeen _ tokO _ tok ss' h
    | exact updateSessionRoom_lastSeen _ tokO _ tok ss' (by simpa using h)

theorem handleJoinRoom_sessions (s : ServerState) (c : Nat) (p : String)
    (tokO : Option String) (ridO : Option String) (tok : String)
    (ss' : Session) (h : s.sessions tok = some ss') :
    ∃ ss'', (handleJoinRoom s c p tokO ridO).1.sessions tok = some ss'' ∧
      ss''.lastSeen = ss'.lastSeen := by
  unfold handleJoinRoom
  dsimp only
  repeat' split
  all_goals first
    | exact ⟨ss', h, rfl⟩
    | exact updateSessionRoom_lastSeen _ tokO _ tok ss' h
    | exact updateSessionRoom_lastSeen _ tokO _ tok ss' (by simpa using h)

theorem handleLeaveRoom_sessions (s : ServerState) (p : String)
    (tokO : Option String) (tok : String) (ss' : Session)
    (h : s.sessions tok = some ss') :
    ∃ ss'', (handleLeaveRoom s p tokO).1.sessions tok = some ss'' ∧
      ss''.lastSeen = ss'.lastSeen := by
  unfold handleLeaveRoom
  dsimp only
  repeat' split
  all_goals first
    | exact ⟨ss', h, rfl⟩
    | exact updateSessionRoom_lastSeen _ tokO _ tok ss' h
    | exact updateSessionRoom_lastSeen _ tokO _ tok ss' (by simpa using h)

theorem routeActive_sessions (s : ServerState) (c : Nat) (p : String)
    (tokO : Option String) (m : ClientMsg) (now : Nat) (tok : String)
    (ss' : Session) (h : s.sessions tok = some ss') :
    ∃ ss'', (routeActive s c p tokO m now).1.sessions tok = some ss'' ∧
      ss''.lastSeen = ss'.lastSeen := by
  cases m with
  | heartbeat => exact ⟨ss', h, rfl⟩
  | queryRoom ridO => exact ⟨ss', by rw [routeActive, handleQueryRoom_state]; exact h, rfl⟩
  | registerHost ridO => exact handleRegisterHost_sessions _ c p tokO ridO now tok ss' h
  | claimHost ridO => exact handleClaimHost_sessions _ c p tokO ridO now tok ss' h
  | joinRoom ridO => exact handleJoinRoom_sessions _ c p tokO ridO tok ss' h
  | signal k t f pl => exact ⟨ss', by rw [routeActive, handleSignal_state]; exact h, rfl⟩
  | leaveRoom => exact handleLeaveRoom_sessions _ p tokO tok ss' h
  | invalidJson => exact ⟨ss', h, rfl⟩
  | noType => exact ⟨ss', h, rfl⟩
  | hello t => exact ⟨ss', h, rfl⟩
  | unknown t => exact ⟨ss', h, rfl⟩

/-- Claim C9 as amended. On an `ACTIVE` connection, every message that
passes JSON/type parsing and the rate check refreshes the session's
`lastSeen` to the current time before routing — whatever the message type,
including ones that fail routing-stage validation; but a message rejected by
the rate limit is answered before the refresh and leaves the session ledger
unchanged. -/
theorem c9_heartbeat_refresh (s : ServerState) (c : Nat) (cn : Conn) (p : String)
    (tok : String) (ss : Session) (m : ClientMsg) (now : Nat) (fresh : String)
    (hc : s.conns c = some cn) (hp : cn.peerId = some p)
    (htk : cn.sessionToken = some tok) (hss : s.sessions tok = some ss)
    (hm1 : m ≠ ClientMsg.invalidJson) (hm2 : m ≠ ClientMsg.noType) :
    ((checkRateLimit s.rates p now).1 = true →
      ∃ ss', (handleMessage s c m now fresh).1.sessions tok = some ss' ∧
        ss'.lastSeen = now) ∧
    ((checkRateLimit s.rates p now).1 = false →
      (handleMessage s c m now fresh).1.sessions = s.sessions) := by
  constructor
  · intro hrate
    rw [handleMessage_active s c cn p m now fresh hc hp hm1 hm2 hrate]
    have hs2 : (refreshSessionO { s with rates := (checkRateLimit s.rates p now).2 }
        cn.sessionToken now).sessions tok = some { ss with lastSeen := now } := by
      rw [htk]
      simp [refreshSessionO, refreshSession, hss]
    obtain ⟨ss'', h1, h2⟩ := routeActive_sessions _ c p cn.sessionToken m now tok _ hs2
    exact ⟨ss'', h1, h2⟩
  · intro hrate
    cases m <;> simp_all [handleMessage]

set_option maxRecDepth 8000

/-- The prefix of the C9 scenario: connect, handshake, then fifty
heartbeats at time 5 — the rate cap for the window starting at 5 is now
exhausted and the session heartbeat stands at 5. -/
def c9Run : ServerState :=
  runEvents initState
    (Event.connect 1 "ip" ::
     Event.message 1 (ClientMsg.hello (some demoToken)) 0 demoPeerId ::
     List.replicate 50 (Event.message 1 ClientMsg.heartbeat 5 ""))

/-- Counterexample to claim C9 as stated: at `c9Run` the 51st message of
the window (time 6) is rejected by the rate limit — and the session's
`lastSeen` stays at 5 instead of being refreshed to 6, so a rate-rejected
message does *not* refresh the heartbeat. -/
theorem c9_heartbeat_refresh_counterexample :
    c9Run.sessions demoToken =
      some { peerId := demoPeerId, roomId := none, lastSeen := 5 } ∧
    (handleMessage c9Run 1 ClientMsg.heartbeat 6 "").2 =
      [(1, OutMsg.errorMsg "rate-limit" "Too many messages")] ∧
    (handleMessage c9Run 1 ClientMsg.heartbeat 6 "").1.sessions demoToken =
      some { peerId := demoPeerId, roomId := none, lastSeen := 5 } ∧
    (handleMessage c9Run 1 ClientMsg.heartbeat 6 "").1.sessions demoToken ≠
      some { peerId := demoPeerId, roomId := none, lastSeen := 6 } := by
  refine ⟨?_, ?_, ?_, ?_⟩ <;> decide

/-- Witness state for `c9_heartbeat_refresh`: `c2State` with a live session
for `demoToken`. -/
def c9WitState : ServerState :=
  { c2State with
    sessions := updS initState.sessions demoToken
      (some { peerId := demoPeerId, roomId := none, lastSeen := 0 }) }

/-- Witness for `c9_heartbeat_refresh`: a rate-admitted `register-host`
with an invalid room id still refreshes `lastSeen` to the message time. -/
theorem c9_heartbeat_refresh_witness :
    ∃ ss', (handleMessage c9WitState 1
        (ClientMsg.registerHost (some "x")) 9 "").1.sessions demoToken = some ss' ∧
      ss'.lastSeen = 9 := by
  exact (c9_heartbeat_refresh c9WitState 1
    { ip := "ip", peerId := some demoPeerId, sessionToken := some demoToken, isOpen := true }
    demoPeerId demoToken { peerId := demoPeerId, roomId := none, lastSeen := 0 }
    (ClientMsg.registerHost (some "x")) 9 ""
    rfl rfl rfl (by decide) (by decide) (by decide)).1 (by decide)

/-! ## Claim C10: join-room leaves the previous room's member set alone -/

theorem spreadPeer_roomId (o : Option PeerRec) (r : Option String) :
    (spreadPeer o r).roomId = r := by
  cases o <;> rfl

theorem mem_addMember (l : List String) (p : String) : p ∈ addMember l p := by
  unfold addMember
  split
  · assumption
  · simp

theorem handleJoinRoom_success_state (s : ServerState) (c : Nat) (p : String)
    (tokO : Option String) (rid : String) (rm : Room)
    (hvalid : isValidRoomIdStr rid = true) (hroom : s.rooms rid = some rm)
    (hlive : hasPeer s rm.hostPeerId = true) :
    (handleJoinRoom s c p tokO (some rid)).1.members =
      updM s.members rid (addMember (s.members rid) p) ∧
    (handleJoinRoom s c p tokO (some rid)).1.peers =
      updS s.peers p (some (spreadPeer (s.peers p) (some rid))) ∧
    (handleJoinRoom s c p tokO (some rid)).1.rooms = s.rooms ∧
    (handleJoinRoom s c p tokO (some rid)).1.conns = s.conns := by
  refine ⟨?_, ?_, ?_, ?_⟩ <;> simp [handleJoinRoom, hvalid, hroom, hlive]

theorem handleLeaveRoom_member_state (s : ServerState) (p : String)
    (tokO : Option String) (pr : PeerRec) (rid : String) (rm : Room)
    (hpr : s.peers p = some pr) (hrid : pr.roomId = some rid)
    (hroom : s.rooms rid = some rm) (hnothost : rm.hostPeerId ≠ some p) :
    (handleLeaveRoom s p tokO).1.members =
      updM s.members rid ((s.members rid).filter (fun q => q != p)) ∧
    (handleLeaveRoom s p tokO).2 = [] := by
  constructor <;> simp [handleLeaveRoom, hpr, hrid, hroom, hnothost]

/-- Claim C10: a peer `p` recorded as a member of room `X`, joining a
different room `Y` (which exists with a live host other than `p`), is added
to `Y`'s member set and its peer record now names `Y` — while `X`'s member
set is left exactly as it was, so `p` is still recorded as a member of `X`;
and a `leave-room` straight afterwards removes `p` from `Y` only, leaving
`X`'s member set (with `p` in it) still untouched. -/
theorem c10_join_room_frame (s : ServerState) (c : Nat) (cn : Conn) (p : String)
    (X Y : String) (rmY : Room) (now1 now2 : Nat) (fresh1 fresh2 : String)
    (hc : s.conns c = some cn) (hp : cn.peerId = some p)
    (hmem : p ∈ s.members X) (hXY : X ≠ Y)
    (hvalid : isValidRoomIdStr Y = true) (hroomY : s.rooms Y = some rmY)
    (hlive : hasPeer s rmY.hostPeerId = true)
    (hnothost : rmY.hostPeerId ≠ some p)
    (hrate1 : (checkRateLimit s.rates p now1).1 = true)
    (hrate2 : (checkRateLimit
      (handleMessage s c (ClientMsg.joinRoom (some Y)) now1 fresh1).1.rates p now2).1 = true) :
    p ∈ (handleMessage s c (ClientMsg.joinRoom (some Y)) now1 fresh1).1.members Y ∧
    (handleMessage s c (ClientMsg.joinRoom (some Y)) now1 fresh1).1.members X = s.members X ∧
    (∃ pr', (handleMessage s c (ClientMsg.joinRoom (some Y)) now1 fresh1).1.peers p = some pr' ∧
      pr'.roomId = some Y) ∧
    (handleMessage
        (handleMessage s c (ClientMsg.joinRoom (some Y)) now1 fresh1).1
        c ClientMsg.leaveRoom now2 fresh2).1.members X = s.members X ∧
    p ∈ (handleMessage
        (handleMessage s c (ClientMsg.joinRoom (some Y)) now1 fresh1).1
        c ClientMsg.leaveRoom now2 fresh2).1.members X ∧
    p ∉ (handleMessage
        (handleMessage s c (ClientMsg.joinRoom (some Y)) now1 fresh1).1
        c ClientMsg.leaveRoom now2 fresh2).1.members Y := by
  have hact1 := handleMessage_active s c cn p (ClientMsg.joinRoom (some Y)) now1 fresh1
    hc hp (by simp) (by simp) hrate1
  have hroomY2 : (refreshSessionO { s with rates := (checkRateLimit s.rates p now1).2 }
      cn.sessionToken now1).rooms Y = some rmY := by
    simpa using hroomY
  have hpeerss2 : (refreshSessionO { s with rates := (checkRateLimit s.rates p now1).2 }
      cn.sessionToken now1).peers = s.peers := by simp
  have hlive2 : hasPeer (refreshSessionO { s with rates := (checkRateLimit s.rates p now1).2 }
      cn.sessionToken now1) rmY.hostPeerId = true := by
    rw [hasPeer_eq_of_peers hpeerss2]
    exact hlive
  obtain ⟨hmembers1, hpeers1, hrooms1, hconns1⟩ :=
    handleJoinRoom_success_state _ c p cn.sessionToken Y rmY hvalid hroomY2 hlive2
  have hj : (handleMessage s c (ClientMsg.joinRoom (some Y)) now1 fresh1).1 =
      (handleJoinRoom (refreshSessionO { s with rates := (checkRateLimit s.rates p now1).2 }
        cn.sessionToken now1) c p cn.sessionToken (some Y)).1 := by
    rw [hact1]; rfl
  have hm1 : (handleMessage s c (ClientMsg.joinRoom (some Y)) now1 fresh1).1.members =
      updM s.members Y (addMember (s.members Y) p) := by
    rw [hj, hmembers1]; simp
  have hp1 : (handleMessage s c (ClientMsg.joinRoom (some Y)) now1 fresh1).1.peers =
      updS s.peers p (some (spreadPeer (s.peers p) (some Y))) := by
    rw [hj, hpeers1]; simp
  have hr1 : (handleMessage s c (ClientMsg.joinRoom (some Y)) now1 fresh1).1.rooms = s.rooms := by
    rw [hj, hrooms1]; simp
  have hcn1 : (handleMessage s c (ClientMsg.joinRoom (some Y)) now1 fresh1).1.conns = s.conns := by
    rw [hj, hconns1]; simp
  refine ⟨?_, ?_, ?_, ?_, ?_, ?_⟩
  · rw [hm1]
    simpa using mem_addMember (s.members Y) p
  · rw [hm1]
    exact updM_other _ _ _ hXY
  · rw [hp1]
    exact ⟨spreadPeer (s.peers p) (some Y), by simp, spreadPeer_roomId _ _⟩
  all_goals {
    have hact2 := handleMessage_active
      (handleMessage s c (ClientMsg.joinRoom (some Y)) now1 fresh1).1 c cn p
      ClientMsg.leaveRoom now2 fresh2 (by rw [hcn1]; exact hc) hp (by simp) (by simp) hrate2
    rw [hact2]
    simp only [routeActive]
    have hpr2 : (refreshSessionO
        { (handleMessage s c (ClientMsg.joinRoom (some Y)) now1 fresh1).1 with
          rates := (checkRateLimit
            (handleMessage s c (ClientMsg.joinRoom (some Y)) now1 fresh1).1.rates p now2).2 }
        cn.sessionToken now2).peers p = some (spreadPeer (s.peers p) (some Y)) := by
      simp [hp1, updS]
    have hroomY3 : (refreshSessionO
        { (handleMessage s c (ClientMsg.joinRoom (some Y)) now1 fresh1).1 with
          rates := (checkRateLimit
            (handleMessage s c (ClientMsg.joinRoom (some Y)) now1 fresh1).1.rates p now2).2 }
        cn.sessionToken now2).rooms Y = some rmY := by
      simp [hr1, hroomY]
    obtain ⟨hmem2, _⟩ := handleLeaveRoom_member_state _ p cn.sessionToken
      (spreadPeer (s.peers p) (some Y)) Y rmY hpr2 (spreadPeer_roomId _ _) hroomY3 hnothost
    rw [hmem2]
    first
    | -- members of X unchanged through both steps
      rw [updM_other _ _ _ hXY]
      simp only [refreshSessionO_members, hm1]
      first
      | exact updM_other _ _ _ hXY
      | (rw [updM_other _ _ _ hXY]; exact hmem)
    | -- p is no longer in Y's member set
      (rw [updM_same]; simp)
  }

/-- Concrete state for the C10 witness: `demoPeerId` is a member of
"roomx"; "roomy" exists with live host `demoPeerId2`. -/
def c10State : ServerState :=
  { initState with
    conns := fun c =>
      if c = 1 then some { ip := "ip1", peerId := some demoPeerId, sessionToken := some demoToken, isOpen := true }
      else if c = 2 then some { ip := "ip2", peerId := some demoPeerId2, sessionToken := some demoToken2, isOpen := true }
      else none,
    wsConn := fun q =>
      if q = demoPeerId then some 1
      else if q = demoPeerId2 then some 2
      else none,
    peers := fun q =>
      if q = demoPeerId then some { roomId := some "roomx", ip := some "ip1", sessionToken := some demoToken }
      else if q = demoPeerId2 then some { roomId := some "roomy", ip := some "ip2", sessionToken := some demoToken2 }
      else none,
    rooms := fun r =>
      if r = "roomx" then some { hostPeerId := none, createdAt := 0 }
      else if r = "roomy" then some { hostPeerId := some demoPeerId2, createdAt := 0 }
      else none,
    members := fun r => if r = "roomx" then [demoPeerId] else [],
    hostWs := fun r => if r = "roomy" then some 2 else none }

/-- Witness for `c10_join_room_frame`: concrete join of "roomy" by the
member of "roomx", then leave — "roomx"'s member set is untouched
throughout. -/
theorem c10_join_room_frame_witness :
    demoPeerId ∈ (handleMessage c10State 1 (ClientMsg.joinRoom (some "roomy")) 1 "").1.members "roomy" ∧
    (handleMessage c10State 1 (ClientMsg.joinRoom (some "roomy")) 1 "").1.members "roomx" =
      c10State.members "roomx" ∧
    (handleMessage
        (handleMessage c10State 1 (ClientMsg.joinRoom (some "roomy")) 1 "").1
        1 ClientMsg.leaveRoom 2 "").1.members "roomx" = c10State.members "roomx" ∧
    demoPeerId ∉ (handleMessage
        (handleMessage c10State 1 (ClientMsg.joinRoom (some "roomy")) 1 "").1
        1 ClientMsg.leaveRoom 2 "").1.members "roomy" := by
  have h := c10_join_room_frame c10State 1
    { ip := "ip1", peerId := some demoPeerId, sessionToken := some demoToken, isOpen := true }
    demoPeerId "roomx" "roomy" { hostPeerId := some demoPeerId2, createdAt := 0 }
    1 2 "" "" rfl rfl (by decide) (by decide) (by decide) rfl (by decide) (by decide)
    (by decide) (by decide)
  exact ⟨h.1, h.2.1, h.2.2.2.1, h.2.2.2.2.2⟩

/-! ## Claim C4: session round-trip -/

/-- The C4 scenario prefix: host `demoPeerId` registers room "abcd1234" and
its transport closes; nobody is ever added to the member set. -/
def c4Events : List Event :=
  [Event.connect 1 "ip",
   Event.message 1 (ClientMsg.hello (some demoToken)) 0 demoPeerId,
   Event.message 1 (ClientMsg.registerHost (some "abcd1234")) 1 "",
   Event.closeConn 1,
   Event.connect 2 "ip"]

/-- Counterexample to claim C4 as stated. In the concrete run `c4Events`
the identity `demoPeerId` is never a member of room "abcd1234" at any
point (it is the registered host); yet replaying its still-fresh token
(reply flagged restored with the last known room) makes the code add it to
the member set — the claim's "re-add as member if previously a member"
clause predicts no such addition. The code's actual condition is "not
already listed and not the currently recorded host". -/
theorem c4_session_roundtrip_counterexample :
    (∀ k, k ≤ 5 → (runEvents initState (c4Events.take k)).members "abcd1234" = []) ∧
    (2, OutMsg.peerIdRestored demoPeerId (some "abcd1234")) ∈
      (step (runEvents initState c4Events)
        (Event.message 2 (ClientMsg.hello (some demoToken)) 2 "")).2 ∧
    (step (runEvents initState c4Events)
        (Event.message 2 (ClientMsg.hello (some demoToken)) 2 "")).1.members "abcd1234" =
      [demoPeerId] ∧
    (step (runEvents initState c4Events)
        (Event.message 2 (ClientMsg.hello (some demoToken)) 2 "")).1.rooms "abcd1234" =
      some { hostPeerId := some demoPeerId, createdAt := 1 } := by
  refine ⟨?_, ?_, ?_, ?_⟩ <;> decide

theorem helloRestore_conns_self (s : ServerState) (c : Nat) (cn : Conn)
    (tok : String) (sess : Session) (now : Nat) :
    (helloRestore s c cn tok sess now).1.conns c =
      some { cn with peerId := some sess.peerId, sessionToken := some tok } := by
  unfold helloRestore
  dsimp only
  simp only [refreshSession_wsConn, refreshSession_conns, refreshSession_rooms,
    refreshSession_members]
  repeat' split
  all_goals simp [updC]

theorem helloRestore_wsConn_self (s : ServerState) (c : Nat) (cn : Conn)
    (tok : String) (sess : Session) (now : Nat) :
    (helloRestore s c cn tok sess now).1.wsConn sess.peerId = some c := by
  unfold helloRestore
  dsimp only
  simp only [refreshSession_wsConn, refreshSession_conns, refreshSession_rooms,
    refreshSession_members]
  repeat' split
  all_goals simp [updS]

theorem helloRestore_reply (s : ServerState) (c : Nat) (cn : Conn)
    (tok : String) (sess : Session) (now : Nat) (ho : cn.isOpen = true) :
    (c, OutMsg.peerIdRestored sess.peerId sess.roomId) ∈
      (helloRestore s c cn tok sess now).2 := by
  unfold helloRestore
  dsimp only
  simp only [refreshSession_wsConn, refreshSession_conns, refreshSession_rooms,
    refreshSession_members]
  repeat' split
  all_goals simp [sendTo, updC, ho]

theorem helloRestore_evict (s : ServerState) (c : Nat) (cn : Conn)
    (tok : String) (sess : Session) (now : Nat) (oldC : Nat) (ocn : Conn)
    (hw : s.wsConn sess.peerId = some oldC) (hne : oldC ≠ c)
    (hocn : s.conns oldC = some ocn) :
    (helloRestore s c cn tok sess now).1.conns oldC =
      some { ocn with isOpen := false } := by
  unfold helloRestore
  dsimp only
  simp only [refreshSession_wsConn, refreshSession_conns, refreshSession_rooms,
    refreshSession_members, hw, hne, hocn]
  repeat' split
  all_goals simp [updC, hne, Ne.symm hne]

theorem helloRestore_member_add (s : ServerState) (c : Nat) (cn : Conn)
    (tok : String) (sess : Session) (now : Nat) (r : String) (rm : Room)
    (hr : sess.roomId = some r) (hrm : s.rooms r = some rm)
    (hnot : sess.peerId ∉ s.members r) (hnh : rm.hostPeerId ≠ some sess.peerId) :
    sess.peerId ∈ (helloRestore s c cn tok sess now).1.members r := by
  unfold helloRestore
  dsimp only
  simp only [refreshSession_wsConn, refreshSession_conns, refreshSession_rooms,
    refreshSession_members, hr]
  repeat' split
  all_goals simp_all [updM]

theorem helloRestore_no_add_when_host (s : ServerState) (c : Nat) (cn : Conn)
    (tok : String) (sess : Session) (now : Nat) (r : String) (rm : Room)
    (hr : sess.roomId = some r) (hrm : s.rooms r = some rm)
    (hhost : rm.hostPeerId = some sess.peerId) :
    (helloRestore s c cn tok sess now).1.members = s.members := by
  unfold helloRestore
  dsimp only
  simp only [refreshSession_wsConn, refreshSession_conns, refreshSession_rooms,
    refreshSession_members, hr]
  repeat' split
  all_goals simp_all

theorem helloRestore_host_rooms (s : ServerState) (c : Nat) (cn : Conn)
    (tok : String) (sess : Session) (now : Nat) (r : String) (rm : Room)
    (hr : sess.roomId = some r) (hrm : s.rooms r = some rm)
    (hhost : rm.hostPeerId = none) :
    (helloRestore s c cn tok sess now).1.rooms r =
      some { rm with hostPeerId := some sess.peerId } ∧
    (helloRestore s c cn tok sess now).1.timers r = false := by
  unfold helloRestore
  dsimp only
  simp only [refreshSession_wsConn, refreshSession_conns, refreshSession_rooms,
    refreshSession_members, refreshSession_timers, hr]
  repeat' split
  all_goals simp_all [updS, cancelCleanupTimer, updT]

theorem helloRestore_host_notify (s : ServerState) (c : Nat) (cn : Conn)
    (tok : String) (sess : Session) (now : Nat) (r : String) (rm : Room)
    (m : String) (cm : Nat) (cnm : Conn)
    (hr : sess.roomId = some r) (hrm : s.rooms r = some rm)
    (hhost : rm.hostPeerId = none)
    (hm : m ∈ s.members r) (hmp : m ≠ sess.peerId)
    (hw : s.wsConn m = some cm) (hcmc : cm ≠ c)
    (hold : ∀ oldC, s.wsConn sess.peerId = some oldC → cm ≠ oldC)
    (hcn : s.conns cm = some cnm) (ho : cnm.isOpen = true) :
    (cm, OutMsg.hostReconnected r sess.peerId) ∈
      (helloRestore s c cn tok sess now).2 := by
  unfold helloRestore
  dsimp only
  simp only [refreshSession_wsConn, hr]
  cases hwp : s.wsConn sess.peerId with
  | none =>
    dsimp only
    simp only [refreshSession_rooms, refreshSession_members, refreshSession_wsConn,
      refreshSession_conns, hrm]
    rw [if_pos hhost]
    refine List.mem_append_right _ ?_
    refine mem_sendToEach_of m _ ?_ ?_ ?_ ho
    · split
      · simpa [updM] using Or.inl hm
      · simpa using hm
    · split
      · simpa [updS, hmp] using hw
      · simpa [updS, hmp] using hw
    · split
      · simpa [updC, hcmc] using hcn
      · simpa [updC, hcmc] using hcn
  | some oldC =>
    have hcmo : cm ≠ oldC := hold oldC hwp
    dsimp only
    by_cases hoc : oldC = c
    · rw [if_neg (by simp [hoc])]
      simp only [refreshSession_rooms, refreshSession_members, refreshSession_wsConn,
        refreshSession_conns, hrm]
      rw [if_pos hhost]
      refine List.mem_append_right _ ?_
      refine mem_sendToEach_of m _ ?_ ?_ ?_ ho
      · split
        · simpa [updM] using Or.inl hm
        · simpa using hm
      · split
        · simpa [updS, hmp] using hw
        · simpa [updS, hmp] using hw
      · split
        · simpa [updC, hcmc] using hcn
        · simpa [updC, hcmc] using hcn
    · rw [if_pos hoc]
      simp only [refreshSession_conns]
      cases hocn : s.conns oldC with
      | none =>
        simp only [hocn]
        simp only [refreshSession_rooms, refreshSession_members, refreshSession_wsConn,
          refreshSession_conns, hrm]
        rw [if_pos hhost]
        refine List.mem_append_right _ ?_
        refine mem_sendToEach_of m _ ?_ ?_ ?_ ho
        · split
          · simpa [updM] using Or.inl hm
          · simpa using hm
        · split
          · simpa [updS, hmp] using hw
          · simpa [updS, hmp] using hw
        · split
          · simpa [updC, hcmc] using hcn
          · simpa [updC, hcmc] using hcn
      | some ocn =>
        simp only [hocn]
        simp only [refreshSession_rooms, refreshSession_members, refreshSession_wsConn,
          refreshSession_conns, hrm]
        rw [if_pos hhost]
        refine List.mem_append_right _ ?_
        refine mem_sendToEach_of m _ ?_ ?_ ?_ ho
        · split
          · simpa [updM] using Or.inl hm
          · simpa using hm
        · split
          · simpa [updS, hmp] using hw
          · simpa [updS, hmp] using hw
        · split
          · simpa [updC, hcmc, hcmo] using hcn
          · simpa [updC, hcmc, hcmo] using hcn

theorem handleMessage_restore (s : ServerState) (c : Nat) (cn : Conn)
    (tok : String) (sess : Session) (now : Nat) (fresh : String)
    (hc : s.conns c = some cn) (hp : cn.peerId = none)
    (hvt : isValidSessionTokenStr tok = true)
    (hsess : s.sessions tok = some sess)
    (hfresh : now - sess.lastSeen < SESSION_EXPIRY_SECONDS * 1000) :
    handleMessage s c (ClientMsg.hello (some tok)) now fresh =
      helloRestore s c cn tok sess now := by
  simp [handleMessage, hc, hp, handleHello, hvt, hsess, hfresh]

/-- Claim C4 as amended. A `hello` replayed with a known, still-fresh token
on an unauthenticated open connection restores the very same identity
(`restored` reply carrying the session's last known room), evicts any
different stale transport registered for that identity (it is closed),
re-registers the identity to the new transport, and reconciles the last
known room: the identity is re-added to the member set when it is not
already listed and not the currently recorded host (regardless of whether
it was previously a member — this is where the original claim fails); no
add happens while it is still the recorded host; and if the room is
currently hostless the identity is re-installed as host, the pending
cleanup timer is cancelled, and each live member is notified that the host
is back. -/
theorem c4_session_roundtrip (s : ServerState) (c : Nat) (cn : Conn)
    (tok : String) (sess : Session) (now : Nat) (fresh : String)
    (hc : s.conns c = some cn) (hp : cn.peerId = none) (ho : cn.isOpen = true)
    (hvt : isValidSessionTokenStr tok = true)
    (hsess : s.sessions tok = some sess)
    (hfresh : now - sess.lastSeen < SESSION_EXPIRY_SECONDS * 1000) :
    ((handleMessage s c (ClientMsg.hello (some tok)) now fresh).1.conns c =
      some { cn with peerId := some sess.peerId, sessionToken := some tok }) ∧
    ((c, OutMsg.peerIdRestored sess.peerId sess.roomId) ∈
      (handleMessage s c (ClientMsg.hello (some tok)) now fresh).2) ∧
    (∀ oldC ocn, s.wsConn sess.peerId = some oldC → oldC ≠ c →
      s.conns oldC = some ocn →
      (handleMessage s c (ClientMsg.hello (some tok)) now fresh).1.conns oldC =
        some { ocn with isOpen := false }) ∧
    ((handleMessage s c (ClientMsg.hello (some tok)) now fresh).1.wsConn sess.peerId =
      some c) ∧
    (∀ r rm, sess.roomId = some r → s.rooms r = some rm →
      sess.peerId ∉ s.members r → rm.hostPeerId ≠ some sess.peerId →
      sess.peerId ∈ (handleMessage s c (ClientMsg.hello (some tok)) now fresh).1.members r) ∧
    (∀ r rm, sess.roomId = some r → s.rooms r = some rm →
      rm.hostPeerId = some sess.peerId →
      (handleMessage s c (ClientMsg.hello (some tok)) now fresh).1.members = s.members) ∧
    (∀ r rm, sess.roomId = some r → s.rooms r = some rm → rm.hostPeerId = none →
      (handleMessage s c (ClientMsg.hello (some tok)) now fresh).1.rooms r =
        some { rm with hostPeerId := some sess.peerId } ∧
      (handleMessage s c (ClientMsg.hello (some tok)) now fresh).1.timers r = false) ∧
    (∀ r rm m cm cnm, sess.roomId = some r → s.rooms r = some rm →
      rm.hostPeerId = none → m ∈ s.members r → m ≠ sess.peerId →
      s.wsConn m = some cm → cm ≠ c →
      (∀ oldC, s.wsConn sess.peerId = some oldC → cm ≠ oldC) →
      s.conns cm = some cnm → cnm.isOpen = true →
      (cm, OutMsg.hostReconnected r sess.peerId) ∈
        (handleMessage s c (ClientMsg.hello (some tok)) now fresh).2) := by
  rw [handleMessage_restore s c cn tok sess now fresh hc hp hvt hsess hfresh]
  refine ⟨helloRestore_conns_self s c cn tok sess now,
    helloRestore_reply s c cn tok sess now ho,
    ?_, helloRestore_wsConn_self s c cn tok sess now, ?_, ?_, ?_, ?_⟩
  · intro oldC ocn hw hne hocn
    exact helloRestore_evict s c cn tok sess now oldC ocn hw hne hocn
  · intro r rm hr hrm hnot hnh
    exact helloRestore_member_add s c cn tok sess now r rm hr hrm hnot hnh
  · intro r rm hr hrm hhost
    exact helloRestore_no_add_when_host s c cn tok sess now r rm hr hrm hhost
  · intro r rm hr hrm hhost
    exact helloRestore_host_rooms s c cn tok sess now r rm hr hrm hhost
  · intro r rm m cm cnm hr hrm hhost hm hmp hw hcmc hold hcn hoo
    exact helloRestore_host_notify s c cn tok sess now r rm m cm cnm
      hr hrm hhost hm hmp hw hcmc hold hcn hoo

/-- Concrete state for the C4 witness: an unauthenticated open connection 2
replaying `demoToken`, whose session names `demoPeerId` in the hostless
room "abcd1234" with live member `demoPeerId2` on connection 3; the
identity's stale transport 9 is still registered. -/
def c4WitState : ServerState :=
  { initState with
    conns := fun c =>
      if c = 2 then some { ip := "ip", peerId := none, sessionToken := none, isOpen := true }
      else if c = 3 then some { ip := "ip3", peerId := some demoPeerId2, sessionToken := some demoToken2, isOpen := true }
      else if c = 9 then some { ip := "ip9", peerId := some demoPeerId, sessionToken := some demoToken, isOpen := true }
      else none,
    sessions := fun t =>
      if t = demoToken then some { peerId := demoPeerId, roomId := some "abcd1234", lastSeen := 1 }
      else if t = demoToken2 then some { peerId := demoPeerId2, roomId := some "abcd1234", lastSeen := 1 }
      else none,
    peers := fun q =>
      if q = demoPeerId2 then some { roomId := some "abcd1234", ip := some "ip3", sessionToken := some demoToken2 }
      else none,
    rooms := fun r =>
      if r = "abcd1234" then some { hostPeerId := none, createdAt := 1 } else none,
    members := fun r => if r = "abcd1234" then [demoPeerId2] else [],
    wsConn := fun q =>
      if q = demoPeerId2 then some 3
      else if q = demoPeerId then some 9
      else none,
    timers := fun r => r = "abcd1234" }

/-- Witness for `c4_session_roundtrip` at `c4WitState`: the replayed token
restores `demoPeerId` on connection 2, closes stale transport 9, re-installs
the host, cancels the timer, and notifies the member on connection 3. -/
theorem c4_session_roundtrip_witness :
    ((handleMessage c4WitState 2 (ClientMsg.hello (some demoToken)) 2 "").1.conns 2 =
      some { ip := "ip", peerId := some demoPeerId, sessionToken := some demoToken, isOpen := true }) ∧
    ((2, OutMsg.peerIdRestored demoPeerId (some "abcd1234")) ∈
      (handleMessage c4WitState 2 (ClientMsg.hello (some demoToken)) 2 "").2) ∧
    ((handleMessage c4WitState 2 (ClientMsg.hello (some demoToken)) 2 "").1.conns 9 =
      some { ip := "ip9", peerId := some demoPeerId, sessionToken := some demoToken, isOpen := false }) ∧
    ((handleMessage c4WitState 2 (ClientMsg.hello (some demoToken)) 2 "").1.rooms "abcd1234" =
      some { hostPeerId := some demoPeerId, createdAt := 1 }) ∧
    ((handleMessage c4WitState 2 (ClientMsg.hello (some demoToken)) 2 "").1.timers "abcd1234" =
      false) ∧
    ((3, OutMsg.hostReconnected "abcd1234" demoPeerId) ∈
      (handleMessage c4WitState 2 (ClientMsg.hello (some demoToken)) 2 "").2) := by
  have h := c4_session_roundtrip c4WitState 2
    { ip := "ip", peerId := none, sessionToken := none, isOpen := true }
    demoToken { peerId := demoPeerId, roomId := some "abcd1234", lastSeen := 1 }
    2 "" rfl rfl rfl (by decide) rfl (by decide)
  have h7 := h.2.2.2.2.2.2.1 "abcd1234"
    { hostPeerId := none, createdAt := 1 } rfl rfl rfl
  refine ⟨h.1, h.2.1, ?_, h7.1, h7.2, ?_⟩
  · exact h.2.2.1 9
      { ip := "ip9", peerId := some demoPeerId, sessionToken := some demoToken, isOpen := true }
      rfl (by decide) rfl
  · exact h.2.2.2.2.2.2.2 "abcd1234" { hostPeerId := none, createdAt := 1 }
      demoPeerId2 3
      { ip := "ip3", peerId := some demoPeerId2, sessionToken := some demoToken2, isOpen := true }
      rfl rfl rfl (by decide) (by decide) (by decide) (by decide)
      (by
        intro oldC hoc
        have h9 : some (9 : Nat) = some oldC := hoc
        cases h9
        decide)
      rfl rfl

/-! ## Claim C3: host migration with grace period -/

/-- No frame in this output is a `room-closed` notification. -/
def NotRoomClosed (out : List Send) : Prop :=
  ∀ q ∈ out, ∀ rid reason, q.2 ≠ OutMsg.roomClosed rid reason

theorem NotRoomClosed_nil : NotRoomClosed [] := by
  intro q hq
  simp at hq

theorem NotRoomClosed_append {o1 o2 : List Send} (h1 : NotRoomClosed o1)
    (h2 : NotRoomClosed o2) : NotRoomClosed (o1 ++ o2) := by
  intro q hq
  rcases List.mem_append.mp hq with h | h
  · exact h1 q h
  · exact h2 q h

theorem NotRoomClosed_sendTo {s : ServerState} {c : Nat} {m : OutMsg}
    (h : ∀ rid reason, m ≠ OutMsg.roomClosed rid reason) :
    NotRoomClosed (sendTo s c m) := by
  intro q hq rid reason
  rw [mem_sendTo hq]
  exact h rid reason

theorem NotRoomClosed_sendToOpt {s : ServerState} {cO : Option Nat} {m : OutMsg}
    (h : ∀ rid reason, m ≠ OutMsg.roomClosed rid reason) :
    NotRoomClosed (sendToOpt s cO m) := by
  intro q hq rid reason
  rw [mem_sendToOpt hq]
  exact h rid reason

theorem NotRoomClosed_sendToPeer {s : ServerState} {p : String} {m : OutMsg}
    (h : ∀ rid reason, m ≠ OutMsg.roomClosed rid reason) :
    NotRoomClosed (sendToPeer s p m) := by
  intro q hq rid reason
  rw [(mem_sendToPeer hq).1]
  exact h rid reason

theorem NotRoomClosed_sendToEach {s : ServerState} {ps : List String} {m : OutMsg}
    (h : ∀ rid reason, m ≠ OutMsg.roomClosed rid reason) :
    NotRoomClosed (sendToEach s ps m) := by
  intro q hq rid reason
  rw [mem_sendToEach hq]
  exact h rid reason

theorem NotRoomClosed_sendError {s : ServerState} {c : Nat} {et r : String} :
    NotRoomClosed (sendError s c et r) :=
  NotRoomClosed_sendTo (by intro rid reason; simp)

theorem handleQueryRoom_noRoomClosed (s : ServerState) (c : Nat)
    (ridO : Option String) : NotRoomClosed (handleQueryRoom s c ridO).2 := by
  unfold handleQueryRoom
  try dsimp only
  repeat' split
  all_goals exact NotRoomClosed_sendTo (by intro rid reason; simp)

theorem handleRegisterHost_noRoomClosed (s : ServerState) (c : Nat) (p : String)
    (tokO : Option String) (ridO : Option String) (now : Nat) :
    NotRoomClosed (handleRegisterHost s c p tokO ridO now).2 := by
  unfold handleRegisterHost
  dsimp only
  repeat' split
  all_goals exact NotRoomClosed_sendTo (by intro rid reason; simp)

theorem handleClaimHost_noRoomClosed (s : ServerState) (c : Nat) (p : String)
    (tokO : Option String) (ridO : Option String) (now : Nat) :
    NotRoomClosed (handleClaimHost s c p tokO ridO now).2 := by
  unfold handleClaimHost
  dsimp only
  repeat' split
  all_goals exact NotRoomClosed_sendTo (by intro rid reason; simp)

theorem handleJoinRoom_noRoomClosed (s : ServerState) (c : Nat) (p : String)
    (tokO : Option String) (ridO : Option String) :
    NotRoomClosed (handleJoinRoom s c p tokO ridO).2 := by
  unfold handleJoinRoom
  dsimp only
  repeat' split
  all_goals first
    | exact NotRoomClosed_sendTo (by intro rid reason; simp)
    | exact NotRoomClosed_append (NotRoomClosed_sendTo (by intro rid reason; simp))
        (NotRoomClosed_sendToOpt (by intro rid reason; simp))

theorem handleSignal_noRoomClosed (s : ServerState) (c : Nat) (p : String)
    (k : SigKind) (targetO : Option String) (payload : String) :
    NotRoomClosed (handleSignal s c p k targetO payload).2 := by
  unfold handleSignal
  try dsimp only
  repeat' split
  all_goals first
    | exact NotRoomClosed_sendError
    | exact NotRoomClosed_sendToPeer (by intro rid reason; simp)

theorem handleLeaveRoom_noRoomClosed (s : ServerState) (p : String)
    (tokO : Option String) : NotRoomClosed (handleLeaveRoom s p tokO).2 := by
  unfold handleLeaveRoom
  dsimp only
  repeat' split
  all_goals first
    | exact NotRoomClosed_nil
    | exact NotRoomClosed_sendToEach (by intro rid reason; simp)

theorem helloNew_noRoomClosed (s : ServerState) (c : Nat) (cn : Conn)
    (tok : String) (now : Nat) (fresh : String) :
    NotRoomClosed (helloNew s c cn tok now fresh).2 :=
  NotRoomClosed_sendTo (by intro rid reason; simp)

theorem helloRestore_noRoomClosed (s : ServerState) (c : Nat) (cn : Conn)
    (tok : String) (sess : Session) (now : Nat) :
    NotRoomClosed (helloRestore s c cn tok sess now).2 := by
  unfold helloRestore
  dsimp only
  repeat' split
  all_goals first
    | exact NotRoomClosed_sendTo (by intro rid reason; simp)
    | exact NotRoomClosed_append (NotRoomClosed_sendTo (by intro rid reason; simp))
        (NotRoomClosed_sendToEach (by intro rid reason; simp))

theorem handleHello_noRoomClosed (s : ServerState) (c : Nat) (cn : Conn)
    (tokO : Option String) (now : Nat) (fresh : String) :
    NotRoomClosed (handleHello s c cn tokO now fresh).2 := by
  unfold handleHello
  repeat' split
  all_goals first
    | exact NotRoomClosed_sendError
    | exact helloRestore_noRoomClosed _ _ _ _ _ _
    | exact helloNew_noRoomClosed _ _ _ _ _ _

theorem routeActive_noRoomClosed (s : ServerState) (c : Nat) (p : String)
    (tokO : Option String) (m : ClientMsg) (now : Nat) :
    NotRoomClosed (routeActive s c p tokO m now).2 := by
  cases m with
  | heartbeat => exact NotRoomClosed_sendTo (by intro rid reason; simp)
  | queryRoom ridO => exact handleQueryRoom_noRoomClosed _ _ _
  | registerHost ridO => exact handleRegisterHost_noRoomClosed _ _ _ _ _ _
  | claimHost ridO => exact handleClaimHost_noRoomClosed _ _ _ _ _ _
  | joinRoom ridO => exact handleJoinRoom_noRoomClosed _ _ _ _ _
  | signal k t f pl => exact handleSignal_noRoomClosed _ _ _ _ _ _
  | leaveRoom => exact handleLeaveRoom_noRoomClosed _ _ _
  | invalidJson => exact NotRoomClosed_nil
  | noType => exact NotRoomClosed_nil
  | hello t => exact NotRoomClosed_nil
  | unknown t => exact NotRoomClosed_nil

theorem handleMessage_noRoomClosed (s : ServerState) (c : Nat) (m : ClientMsg)
    (now : Nat) (fresh : String) :
    NotRoomClosed (handleMessage s c m now fresh).2 := by
  unfold handleMessage
  cases hc : s.conns c with
  | none => exact NotRoomClosed_nil
  | some cn =>
    dsimp only
    cases m with
    | invalidJson => exact NotRoomClosed_sendError
    | noType => exact NotRoomClosed_sendError
    | hello tokO =>
      dsimp only
      cases cn.peerId with
      | none =>
        exact handleHello_noRoomClosed _ _ _ _ _ _
      | some p =>
        dsimp only
        split
        · exact routeActive_noRoomClosed _ _ _ _ _ _
        · exact NotRoomClosed_sendError
    | heartbeat =>
      dsimp only
      cases cn.peerId with
      | none =>
        exact NotRoomClosed_sendError
      | some p =>
        dsimp only
        split
        · exact routeActive_noRoomClosed _ _ _ _ _ _
        · exact NotRoomClosed_sendError
    | queryRoom ridO =>
      dsimp only
      cases cn.peerId with
      | none =>
        exact NotRoomClosed_sendError
      | some p =>
        dsimp only
        split
        · exact routeActive_noRoomClosed _ _ _ _ _ _
        · exact NotRoomClosed_sendError
    | registerHost ridO =>
      dsimp only
      cases cn.peerId with
      | none =>
        exact NotRoomClosed_sendError
      | some p =>
        dsimp only
        split
        · exact routeActive_noRoomClosed _ _ _ _ _ _
        · exact NotRoomClosed_sendError
    | claimHost ridO =>
      dsimp only
      cases cn.peerId with
      | none =>
        exact NotRoomClosed_sendError
      | some p =>
        dsimp only
        split
        · exact routeActive_noRoomClosed _ _ _ _ _ _
        · exact NotRoomClosed_sendError
    | joinRoom ridO =>
      dsimp only
      cases cn.peerId with
      | none =>
        exact NotRoomClosed_sendError
      | some p =>
        dsimp only
        split
        · exact routeActive_noRoomClosed _ _ _ _ _ _
        · exact NotRoomClosed_sendError
    | signal k t f pl =>
      dsimp only
      cases cn.peerId with
      | none =>
        exact NotRoomClosed_sendError
      | some p =>
        dsimp only
        split
        · exact routeActive_noRoomClosed _ _ _ _ _ _
        · exact NotRoomClosed_sendError
    | leaveRoom =>
      dsimp only
      cases cn.peerId with
      | none =>
        exact NotRoomClosed_sendError
      | some p =>
        dsimp only
        split
        · exact routeActive_noRoomClosed _ _ _ _ _ _
        · exact NotRoomClosed_sendError
    | unknown t =>
      dsimp only
      cases cn.peerId with
      | none =>
        exact NotRoomClosed_sendError
      | some p =>
        dsimp only
        split
        · exact routeActive_noRoomClosed _ _ _ _ _ _
        · exact NotRoomClosed_sendError

theorem handleClose_noRoomClosed (s : ServerState) (c : Nat) :
    NotRoomClosed (handleClose s c).2 := by
  unfold handleClose
  dsimp only
  repeat' split
  all_goals first
    | exact NotRoomClosed_nil
    | exact NotRoomClosed_sendToEach (by intro rid reason; simp)

theorem handleConnect_noRoomClosed (s : ServerState) (c : Nat) (ip : String) :
    NotRoomClosed (handleConnect s c ip).2 := by
  unfold handleConnect
  repeat' split
  all_goals first
    | exact NotRoomClosed_nil
    | (intro q hq rid reason; simp at hq; simp [hq])

theorem handleSessionSweep_out (s : ServerState) (tok : String) (now : Nat) :
    (handleSessionSweep s tok now).2 = [] := by
  unfold handleSessionSweep
  repeat' split
  all_goals rfl

theorem handleRateSweep_out (s : ServerState) (p : String) (now : Nat) :
    (handleRateSweep s p now).2 = [] := by
  unfold handleRateSweep
  repeat' split
  all_goals rfl

theorem handleTimerFire_out (s : ServerState) (rid' : String) :
    ∀ q ∈ (handleTimerFire s rid').2,
      q.2 = OutMsg.roomClosed rid' "Host did not return" ∧
      s.timers rid' = true ∧
      ∃ rm, s.rooms rid' = some rm ∧ rm.hostPeerId = none := by
  intro q hq
  unfold handleTimerFire at hq
  split at hq
  next htim =>
    dsimp only at hq
    split at hq
    next rm hrm =>
      split at hq
      next hhost =>
        exact ⟨mem_sendToEach hq, htim, rm, hrm, hhost⟩
      · simp at hq
    · simp at hq
  · simp at hq

theorem handleTimerFire_hostless (s : ServerState) (rid : String) (rm : Room)
    (htim : s.timers rid = true) (hrm : s.rooms rid = some rm)
    (hhost : rm.hostPeerId = none) :
    (handleTimerFire s rid).1.rooms rid = none ∧
    ∀ m cm cnm, m ∈ s.members rid → s.wsConn m = some cm →
      s.conns cm = some cnm → cnm.isOpen = true →
      (cm, OutMsg.roomClosed rid "Host did not return") ∈ (handleTimerFire s rid).2 := by
  unfold handleTimerFire
  simp only [htim, if_true]
  try dsimp only
  simp only [hrm]
  rw [if_pos hhost]
  constructor
  · simp [updS]
  · intro m cm cnm hm hw hc ho
    exact mem_sendToEach_of m _ hm hw hc ho

theorem handleTimerFire_host_present (s : ServerState) (rid : String) (rm : Room)
    (h : String) (htim : s.timers rid = true) (hrm : s.rooms rid = some rm)
    (hhost : rm.hostPeerId = some h) :
    (handleTimerFire s rid).1.rooms = s.rooms ∧
    (handleTimerFire s rid).1.members = s.members ∧
    (handleTimerFire s rid).2 = [] := by
  unfold handleTimerFire
  simp only [htim, if_true]
  try dsimp only
  simp only [hrm]
  rw [if_neg (by simp [hhost])]
  exact ⟨rfl, rfl, rfl⟩

/-- Claim C3: host migration with grace period, in four parts.
First: a successful `claim-host` (valid room id, authenticated open
rate-admitted connection, room hostless or absent) installs the claimant as
host, cancels the pending cleanup timer, and emits no `room-closed` frame.
Second: a pending cleanup timer firing on a still-hostless room deletes the
room record and delivers `room-closed` to every member whose transport is
registered and open.
Third: a timer firing after a host has reappeared changes neither the room
directory nor the member sets and sends nothing.
Fourth: the only event that can ever emit `room-closed` for a room is that
room's pending timer firing while the room is hostless — so once a
successful claim has cancelled the timer, no step can send `room-closed`
for the room until a new host loss re-arms it. -/
theorem c3_host_migration :
    (∀ (s : ServerState) (c : Nat) (cn : Conn) (p rid : String) (now : Nat)
        (fresh : String),
      s.conns c = some cn → cn.peerId = some p → cn.isOpen = true →
      isValidRoomIdStr rid = true →
      (checkRateLimit s.rates p now).1 = true →
      hostFree s rid →
      (∃ rm', (handleMessage s c (ClientMsg.claimHost (some rid)) now fresh).1.rooms rid =
          some rm' ∧ rm'.hostPeerId = some p) ∧
      (handleMessage s c (ClientMsg.claimHost (some rid)) now fresh).1.timers rid = false ∧
      NotRoomClosed (handleMessage s c (ClientMsg.claimHost (some rid)) now fresh).2) ∧
    (∀ (s : ServerState) (rid : String) (rm : Room),
      s.timers rid = true → s.rooms rid = some rm → rm.hostPeerId = none →
      (handleTimerFire s rid).1.rooms rid = none ∧
      ∀ m cm cnm, m ∈ s.members rid → s.wsConn m = some cm →
        s.conns cm = some cnm → cnm.isOpen = true →
        (cm, OutMsg.roomClosed rid "Host did not return") ∈ (handleTimerFire s rid).2) ∧
    (∀ (s : ServerState) (rid : String) (rm : Room) (h : String),
      s.timers rid = true → s.rooms rid = some rm → rm.hostPeerId = some h →
      (handleTimerFire s rid).1.rooms = s.rooms ∧
      (handleTimerFire s rid).1.members = s.members ∧
      (handleTimerFire s rid).2 = []) ∧
    (∀ (s : ServerState) (e : Event) (c' : Nat) (rid reason : String),
      (c', OutMsg.roomClosed rid reason) ∈ (step s e).2 →
      e = Event.timerFire rid ∧ s.timers rid = true ∧
        ∃ rm, s.rooms rid = some rm ∧ rm.hostPeerId = none) := by
  refine ⟨?_, ?_, ?_, ?_⟩
  · intro s c cn p rid now fresh hc hp ho hvalid hrate hfree
    have hact := handleMessage_active s c cn p (ClientMsg.claimHost (some rid)) now fresh
      hc hp (by simp) (by simp) hrate
    have hfree2 : roomHostLive (refreshSessionO
        { s with rates := (checkRateLimit s.rates p now).2 } cn.sessionToken now) rid = false := by
      have hcg : roomHostLive (refreshSessionO
          { s with rates := (checkRateLimit s.rates p now).2 } cn.sessionToken now)
          = roomHostLive s := roomHostLive_congr (by simp) (by simp)
      rw [hcg]
      exact (hostFree_iff s rid).mp hfree
    obtain ⟨⟨rm', hrm', hhost'⟩, htim, _, _⟩ :=
      handleClaimHost_success _ c p cn.sessionToken rid now hvalid hfree2
    refine ⟨⟨rm', ?_, hhost'⟩, ?_, handleMessage_noRoomClosed _ _ _ _ _⟩
    · rw [hact]; exact hrm'
    · rw [hact]; exact htim
  · intro s rid rm htim hrm hhost
    exact handleTimerFire_hostless s rid rm htim hrm hhost
  · intro s rid rm h htim hrm hhost
    exact handleTimerFire_host_present s rid rm h htim hrm hhost
  · intro s e c' rid reason hmem
    cases e with
    | connect c ip =>
      exact absurd rfl (handleConnect_noRoomClosed s c ip _ hmem rid reason)
    | message c m now fresh =>
      exact absurd rfl (handleMessage_noRoomClosed s c m now fresh _ hmem rid reason)
    | closeConn c =>
      exact absurd rfl (handleClose_noRoomClosed s c _ hmem rid reason)
    | timerFire rid'' =>
      obtain ⟨hq2, htim, rm, hrm, hhost⟩ := handleTimerFire_out s rid'' _ hmem
      simp only at hq2
      cases hq2
      exact ⟨rfl, htim, rm, hrm, hhost⟩
    | sessionSweep tok now =>
      rw [show (step s (Event.sessionSweep tok now)).2 =
        (handleSessionSweep s tok now).2 from rfl, handleSessionSweep_out] at hmem
      simp at hmem
    | rateSweep p now =>
      rw [show (step s (Event.rateSweep p now)).2 =
        (handleRateSweep s p now).2 from rfl, handleRateSweep_out] at hmem
      simp at hmem

/-- Witness for `c3_host_migration` at concrete states: the pending timer
firing on hostless "abcd1234" (state `c4WitState`) deletes the room and
delivers `room-closed` to the member on connection 3; and a concrete
successful `claim-host` (state `c2State`) leaves no pending timer. -/
theorem c3_host_migration_witness :
    (handleTimerFire c4WitState "abcd1234").1.rooms "abcd1234" = none ∧
    (3, OutMsg.roomClosed "abcd1234" "Host did not return") ∈
      (handleTimerFire c4WitState "abcd1234").2 ∧
    (handleMessage c2State 1 (ClientMsg.claimHost (some "abcd1234")) 5 "").1.timers
      "abcd1234" = false := by
  have hB := c3_host_migration.2.1 c4WitState "abcd1234"
    { hostPeerId := none, createdAt := 1 } (by decide) (by decide) rfl
  have hA := c3_host_migration.1 c2State 1
    { ip := "ip", peerId := some demoPeerId, sessionToken := some demoToken, isOpen := true }
    demoPeerId "abcd1234" 5 "" rfl rfl rfl (by decide) (by decide) (Or.inl rfl)
  refine ⟨hB.1, ?_, hA.2.1⟩
  exact hB.2 demoPeerId2 3
    { ip := "ip3", peerId := some demoPeerId2, sessionToken := some demoToken2, isOpen := true }
    (by decide) (by decide) (by decide) rfl

/-! ## Claim C1: single live host -/

/-- Auxiliary invariant: every identity registered in the Transport
Registry has a peer-store record (the two are always written and deleted
together). -/
def RegistryPeers (s : ServerState) : Prop :=
  ∀ q, (s.wsConn q).isSome → (s.peers q).isSome

theorem initState_RegistryPeers : RegistryPeers initState := by
  intro q hq
  simp [initState] at hq

theorem updS_isSome_mono {V : Type} (m : String → Option V) (k : String) (v : V)
    (q : String) (h : (m q).isSome) : ((updS m k (some v)) q).isSome := by
  unfold updS
  split <;> simp_all

theorem RP_pairUpd {s : ServerState} (h : RegistryPeers s) (k : String) (c : Nat)
    (pr : PeerRec) {w : String → Option Nat} {pe : String → Option PeerRec}
    (hw : w = updS s.wsConn k (some c)) (hp : pe = updS s.peers k (some pr)) :
    ∀ q, (w q).isSome → (pe q).isSome := by
  intro q hq
  subst hw hp
  by_cases hqk : q = k
  · subst hqk
    simp [updS]
  · simp only [updS, hqk, if_false] at hq ⊢
    exact h q hq

theorem RP_delete {s : ServerState} (h : RegistryPeers s) (k : String)
    {w : String → Option Nat} {pe : String → Option PeerRec}
    (hw : w = updS s.wsConn k none) (hp : pe = updS s.peers k none) :
    ∀ q, (w q).isSome → (pe q).isSome := by
  intro q hq
  subst hw hp
  by_cases hqk : q = k
  · subst hqk
    simp [updS] at hq
  · simp only [updS, hqk, if_false] at hq ⊢
    exact h q hq

theorem helloRestore_wsConn_eq (s : ServerState) (c : Nat) (cn : Conn)
    (tok : String) (sess : Session) (now : Nat) :
    (helloRestore s c cn tok sess now).1.wsConn =
      updS s.wsConn sess.peerId (some c) := by
  unfold helloRestore
  dsimp only
  repeat' split
  all_goals simp [cancelCleanupTimer]

theorem helloRestore_peers_eq (s : ServerState) (c : Nat) (cn : Conn)
    (tok : String) (sess : Session) (now : Nat) :
    (helloRestore s c cn tok sess now).1.peers =
      updS s.peers sess.peerId
        (some { roomId := sess.roomId, ip := some cn.ip, sessionToken := some tok }) := by
  unfold helloRestore
  dsimp only
  repeat' split
  all_goals simp [cancelCleanupTimer]

theorem RP_helloRestore {s : ServerState} (h : RegistryPeers s) (c : Nat)
    (cn : Conn) (tok : String) (sess : Session) (now : Nat) :
    RegistryPeers (helloRestore s c cn tok sess now).1 := by
  intro q
  rw [helloRestore_wsConn_eq, helloRestore_peers_eq]
  exact RP_pairUpd h sess.peerId c _ rfl rfl q

theorem RP_helloNew {s : ServerState} (h : RegistryPeers s) (c : Nat) (cn : Conn)
    (tok : String) (now : Nat) (fresh : String) :
    RegistryPeers (helloNew s c cn tok now fresh).1 := by
  intro q
  exact RP_pairUpd h fresh c _ rfl rfl q

theorem RP_handleHello {s : ServerState} (h : RegistryPeers s) (c : Nat) (cn : Conn)
    (tokO : Option String) (now : Nat) (fresh : String) :
    RegistryPeers (handleHello s c cn tokO now fresh).1 := by
  unfold handleHello
  repeat' split
  all_goals first
    | exact RP_helloRestore h _ _ _ _ _
    | exact RP_helloNew h _ _ _ _ _
    | exact h

theorem RP_wsConn_peers {s s' : ServerState} (h : RegistryPeers s)
    (hw : s'.wsConn = s.wsConn)
    (hp : ∀ q, (s.peers q).isSome → (s'.peers q).isSome) : RegistryPeers s' := by
  intro q hq
  rw [hw] at hq
  exact hp q (h q hq)

theorem RP_handleRegisterHost {s : ServerState} (h : RegistryPeers s) (c : Nat)
    (p : String) (tokO : Option String) (ridO : Option String) (now : Nat) :
    RegistryPeers (handleRegisterHost s c p tokO ridO now).1 := by
  refine RP_wsConn_peers h ?_ ?_
  · unfold handleRegisterHost
    dsimp only
    repeat' split
    all_goals simp
  · intro q hq
    unfold handleRegisterHost
    dsimp only
    repeat' split
    all_goals first
      | exact hq
      | (simp only [updateSessionRoom_peers]; exact updS_isSome_mono _ p _ q hq)

theorem RP_handleClaimHost {s : ServerState} (h : RegistryPeers s) (c : Nat)
    (p : String) (tokO : Option String) (ridO : Option String) (now : Nat) :
    RegistryPeers (handleClaimHost s c p tokO ridO now).1 := by
  refine RP_wsConn_peers h ?_ ?_
  · unfold handleClaimHost
    dsimp only
    repeat' split
    all_goals simp
  · intro q hq
    unfold handleClaimHost
    dsimp only
    repeat' split
    all_goals first
      | exact hq
      | (simp only [updateSessionRoom_peers]; exact updS_isSome_mono _ p _ q hq)

theorem RP_handleJoinRoom {s : ServerState} (h : RegistryPeers s) (c : Nat)
    (p : String) (tokO : Option String) (ridO : Option String) :
    RegistryPeers (handleJoinRoom s c p tokO ridO).1 := by
  refine RP_wsConn_peers h ?_ ?_
  · unfold handleJoinRoom
    dsimp only
    repeat' split
    all_goals simp
  · intro q hq
    unfold handleJoinRoom
    dsimp only
    repeat' split
    all_goals first
      | exact hq
      | (simp only [updateSessionRoom_peers]; exact updS_isSome_mono _ p _ q hq)

theorem RP_handleLeaveRoom {s : ServerState} (h : RegistryPeers s) (p : String)
    (tokO : Option String) : RegistryPeers (handleLeaveRoom s p tokO).1 := by
  refine RP_wsConn_peers h ?_ ?_
  · unfold handleLeaveRoom
    dsimp only
    repeat' split
    all_goals simp
  · intro q hq
    unfold handleLeaveRoom
    dsimp only
    repeat' split
    all_goals first
      | exact hq
      | (simp only [updateSessionRoom_peers]
         exact updS_isSome_mono _ p _ q (by simpa using hq))

theorem RP_routeActive {s : ServerState} (h : RegistryPeers s) (c : Nat)
    (p : String) (tokO : Option String) (m : ClientMsg) (now : Nat) :
    RegistryPeers (routeActive s c p tokO m now).1 := by
  cases m with
  | heartbeat => exact h
  | queryRoom ridO => rw [routeActive, handleQueryRoom_state]; exact h
  | registerHost ridO => exact RP_handleRegisterHost h _ _ _ _ _
  | claimHost ridO => exact RP_handleClaimHost h _ _ _ _ _
  | joinRoom ridO => exact RP_handleJoinRoom h _ _ _ _
  | signal k t f pl => rw [routeActive, handleSignal_state]; exact h
  | leaveRoom => exact RP_handleLeaveRoom h _ _
  | invalidJson => exact h
  | noType => exact h
  | hello t => exact h
  | unknown t => exact h

theorem RP_congr {s s' : ServerState} (h : RegistryPeers s)
    (hw : s'.wsConn = s.wsConn) (hp : s'.peers = s.peers) : RegistryPeers s' := by
  intro q hq
  rw [hw] at hq
  rw [hp]
  exact h q hq

theorem RP_handleMessage {s : ServerState} (h : RegistryPeers s) (c : Nat)
    (m : ClientMsg) (now : Nat) (fresh : String) :
    RegistryPeers (handleMessage s c m now fresh).1 := by
  unfold handleMessage
  cases hc : s.conns c with
  | none => exact h
  | some cn =>
    dsimp only
    cases m with
    | invalidJson => exact h
    | noType => exact h
    | hello tokO =>
      dsimp only
      cases cn.peerId with
      | none =>
        exact RP_handleHello h _ _ _ _ _
      | some p =>
        dsimp only
        split
        · exact RP_routeActive (RP_congr h (by simp) (by simp)) _ _ _ _ _
        · exact h
    | heartbeat =>
      dsimp only
      cases cn.peerId with
      | none =>
        exact h
      | some p =>
        dsimp only
        split
        · exact RP_routeActive (RP_congr h (by simp) (by simp)) _ _ _ _ _
        · exact h
    | queryRoom ridO =>
      dsimp only
      cases cn.peerId with
      | none =>
        exact h
      | some p =>
        dsimp only
        split
        · exact RP_routeActive (RP_congr h (by simp) (by simp)) _ _ _ _ _
        · exact h
    | registerHost ridO =>
      dsimp only
      cases cn.peerId with
      | none =>
        exact h
      | some p =>
        dsimp only
        split
        · exact RP_routeActive (RP_congr h (by simp) (by simp)) _ _ _ _ _
        · exact h
    | claimHost ridO =>
      dsimp only
      cases cn.peerId with
      | none =>
        exact h
      | some p =>
        dsimp only
        split
        · exact RP_routeActive (RP_congr h (by simp) (by simp)) _ _ _ _ _
        · exact h
    | joinRoom ridO =>
      dsimp only
      cases cn.peerId with
      | none =>
        exact h
      | some p =>
        dsimp only
        split
        · exact RP_routeActive (RP_congr h (by simp) (by simp)) _ _ _ _ _
        · exact h
    | signal k t f pl =>
      dsimp only
      cases cn.peerId with
      | none =>
        exact h
      | some p =>
        dsimp only
        split
        · exact RP_routeActive (RP_congr h (by simp) (by simp)) _ _ _ _ _
        · exact h
    | leaveRoom =>
      dsimp only
      cases cn.peerId with
      | none =>
        exact h
      | some p =>
        dsimp only
        split
        · exact RP_routeActive (RP_congr h (by simp) (by simp)) _ _ _ _ _
        · exact h
    | unknown t =>
      dsimp only
      cases cn.peerId with
      | none =>
        exact h
      | some p =>
        dsimp only
        split
        · exact RP_routeActive (RP_congr h (by simp) (by simp)) _ _ _ _ _
        · exact h

theorem RP_handleConnect {s : ServerState} (h : RegistryPeers s) (c : Nat)
    (ip : String) : RegistryPeers (handleConnect s c ip).1 := by
  unfold handleConnect
  repeat' split
  all_goals exact h

theorem RP_handleClose {s : ServerState} (h : RegistryPeers s) (c : Nat) :
    RegistryPeers (handleClose s c).1 := by
  unfold handleClose
  dsimp only
  repeat' split
  all_goals first
    | exact h
    | (intro q hq
       simp only [scheduleRoomCleanup_wsConn, untrackIp_wsConn,
         scheduleRoomCleanup_peers, untrackIp_peers] at hq ⊢
       exact RP_delete h _ rfl rfl q hq)

theorem RP_handleTimerFire {s : ServerState} (h : RegistryPeers s) (rid : String) :
    RegistryPeers (handleTimerFire s rid).1 := by
  unfold handleTimerFire
  dsimp only
  repeat' split
  all_goals exact h

theorem RP_handleSessionSweep {s : ServerState} (h : RegistryPeers s) (tok : String)
    (now : Nat) : RegistryPeers (handleSessionSweep s tok now).1 := by
  unfold handleSessionSweep
  repeat' split
  all_goals exact h

theorem RP_handleRateSweep {s : ServerState} (h : RegistryPeers s) (p : String)
    (now : Nat) : RegistryPeers (handleRateSweep s p now).1 := by
  unfold handleRateSweep
  repeat' split
  all_goals exact h

theorem step_RegistryPeers {s : ServerState} (h : RegistryPeers s) (e : Event) :
    RegistryPeers (step s e).1 := by
  cases e with
  | connect c ip => exact RP_handleConnect h c ip
  | message c m now fresh => exact RP_handleMessage h c m now fresh
  | closeConn c => exact RP_handleClose h c
  | timerFire rid => exact RP_handleTimerFire h rid
  | sessionSweep tok now => exact RP_handleSessionSweep h tok now
  | rateSweep p now => exact RP_handleRateSweep h p now

theorem reachable_RegistryPeers {s : ServerState} (hs : Reachable s) :
    RegistryPeers s := by
  induction hs with
  | init => exact initState_RegistryPeers
  | next e _ ih => exact step_RegistryPeers ih e

/-- A recorded live host is preserved: helper for an unchanged room map. -/
theorem hostPres_keep {f : String → Option Room} {r : String} {rm : Room}
    {h : String} (hrm : f r = some rm) (hh : rm.hostPeerId = some h) :
    ∀ rm', f r = some rm' → rm'.hostPeerId = some h ∨ rm'.hostPeerId = none := by
  intro rm' h'
  rw [hrm] at h'
  cases h'
  exact Or.inl hh

/-- Helper for a step that clears some room's host. -/
theorem hostPres_updNone {f : String → Option Room} {r rid : String} {rm : Room}
    {h : String} (rmX : Room) (hrm : f r = some rm) (hh : rm.hostPeerId = some h) :
    ∀ rm', (updS f rid (some { rmX with hostPeerId := none })) r = some rm' →
      rm'.hostPeerId = some h ∨ rm'.hostPeerId = none := by
  intro rm' h'
  by_cases hrr : r = rid
  · subst hrr
    rw [updS_same] at h'
    cases h'
    exact Or.inr rfl
  · rw [updS_other _ _ _ hrr, hrm] at h'
    cases h'
    exact Or.inl hh

/-- Helper for a step that deletes some room. -/
theorem hostPres_delete {f : String → Option Room} {r rid : String} {rm : Room}
    {h : String} (hrm : f r = some rm) (hh : rm.hostPeerId = some h) :
    ∀ rm', (updS f rid none) r = some rm' →
      rm'.hostPeerId = some h ∨ rm'.hostPeerId = none := by
  intro rm' h'
  by_cases hrr : r = rid
  · subst hrr
    rw [updS_same] at h'
    cases h'
  · rw [updS_other _ _ _ hrr, hrm] at h'
    cases h'
    exact Or.inl hh

theorem HPres_handleRegisterHost (s : ServerState) (c : Nat) (p : String)
    (tokO : Option String) (ridO : Option String) (now : Nat) (r : String)
    (rm : Room) (h : String) (hrm : s.rooms r = some rm)
    (hh : rm.hostPeerId = some h) (hlive : hasPeer s (some h) = true) :
    ∀ rm', (handleRegisterHost s c p tokO ridO now).1.rooms r = some rm' →
      rm'.hostPeerId = some h ∨ rm'.hostPeerId = none := by
  unfold handleRegisterHost
  dsimp only
  cases ridO with
  | none => exact hostPres_keep hrm hh
  | some rid =>
    intro rm' h'
    dsimp only at h'
    by_cases hval : isValidRoomIdStr rid = true
    · rw [if_pos hval] at h'
      by_cases hblk : (match s.rooms rid with
          | some rm0 => hasPeer s rm0.hostPeerId
          | none => false) = true
      · rw [if_pos hblk] at h'
        exact hostPres_keep hrm hh rm' h'
      · rw [if_neg hblk] at h'
        simp only [updateSessionRoom_rooms, cancelCleanupTimer_rooms] at h'
        by_cases hrr : r = rid
        · subst hrr
          simp only [hrm] at hblk
          rw [hh] at hblk
          exact absurd hlive hblk
        · rw [updS_other _ _ _ hrr, hrm] at h'
          cases h'
          exact Or.inl hh
    · rw [if_neg hval] at h'
      exact hostPres_keep hrm hh rm' h'

theorem HPres_handleClaimHost (s : ServerState) (c : Nat) (p : String)
    (tokO : Option String) (ridO : Option String) (now : Nat) (r : String)
    (rm : Room) (h : String) (hrm : s.rooms r = some rm)
    (hh : rm.hostPeerId = some h) (hlive : hasPeer s (some h) = true) :
    ∀ rm', (handleClaimHost s c p tokO ridO now).1.rooms r = some rm' →
      rm'.hostPeerId = some h ∨ rm'.hostPeerId = none := by
  unfold handleClaimHost
  dsimp only
  cases ridO with
  | none => exact hostPres_keep hrm hh
  | some rid =>
    intro rm' h'
    dsimp only at h'
    by_cases hval : isValidRoomIdStr rid = true
    · rw [if_pos hval] at h'
      by_cases hcl : (match s.rooms rid with
          | some rm0 => !hasPeer s rm0.hostPeerId
          | none => true) = true
      · rw [if_pos hcl] at h'
        simp only [updateSessionRoom_rooms, cancelCleanupTimer_rooms] at h'
        by_cases hrr : r = rid
        · subst hrr
          simp only [hrm] at hcl
          rw [hh, hlive] at hcl
          simp at hcl
        · rw [updS_other _ _ _ hrr, hrm] at h'
          cases h'
          exact Or.inl hh
      · rw [if_neg hcl] at h'
        exact hostPres_keep hrm hh rm' h'
    · rw [if_neg hval] at h'
      exact hostPres_keep hrm hh rm' h'

theorem HPres_handleJoinRoom (s : ServerState) (c : Nat) (p : String)
    (tokO : Option String) (ridO : Option String) (r : String)
    (rm : Room) (h : String) (hrm : s.rooms r = some rm)
    (hh : rm.hostPeerId = some h) :
    ∀ rm', (handleJoinRoom s c p tokO ridO).1.rooms r = some rm' →
      rm'.hostPeerId = some h ∨ rm'.hostPeerId = none := by
  intro rm' h'
  unfold handleJoinRoom at h'
  dsimp only at h'
  repeat' split at h'
  all_goals
    simp only [updateSessionRoom_rooms] at h'
  all_goals exact hostPres_keep hrm hh rm' h'

theorem HPres_handleLeaveRoom (s : ServerState) (p : String)
    (tokO : Option String) (r : String) (rm : Room) (h : String)
    (hrm : s.rooms r = some rm) (hh : rm.hostPeerId = some h) :
    ∀ rm', (handleLeaveRoom s p tokO).1.rooms r = some rm' →
      rm'.hostPeerId = some h ∨ rm'.hostPeerId = none := by
  intro rm' h'
  unfold handleLeaveRoom at h'
  dsimp only at h'
  repeat' split at h'
  all_goals
    simp only [updateSessionRoom_rooms, scheduleRoomCleanup_rooms,
      cancelCleanupTimer_rooms] at h'
  all_goals first
    | exact hostPres_keep hrm hh rm' h'
    | exact hostPres_updNone _ hrm hh rm' h'

theorem HPres_handleTimerFire (s : ServerState) (rid0 : String) (r : String)
    (rm : Room) (h : String) (hrm : s.rooms r = some rm)
    (hh : rm.hostPeerId = some h) :
    ∀ rm', (handleTimerFire s rid0).1.rooms r = some rm' →
      rm'.hostPeerId = some h ∨ rm'.hostPeerId = none := by
  intro rm' h'
  unfold handleTimerFire at h'
  dsimp only at h'
  repeat' split at h'
  all_goals first
    | exact hostPres_keep hrm hh rm' h'
    | exact hostPres_delete hrm hh rm' h'

theorem HPres_handleClose (s : ServerState) (c : Nat) (r : String)
    (rm : Room) (h : String) (hrm : s.rooms r = some rm)
    (hh : rm.hostPeerId = some h) :
    ∀ rm', (handleClose s c).1.rooms r = some rm' →
      rm'.hostPeerId = some h ∨ rm'.hostPeerId = none := by
  intro rm' h'
  unfold handleClose at h'
  dsimp only at h'
  repeat' split at h'
  all_goals
    simp only [scheduleRoomCleanup_rooms, untrackIp_rooms] at h'
  all_goals first
    | exact hostPres_keep hrm hh rm' h'
    | exact hostPres_updNone _ hrm hh rm' h'

theorem HPres_helloRestore (s : ServerState) (c : Nat) (cn : Conn) (tok : String)
    (sess : Session) (now : Nat) (r : String) (rm : Room) (h : String)
    (hrm : s.rooms r = some rm) (hh : rm.hostPeerId = some h) :
    ∀ rm', (helloRestore s c cn tok sess now).1.rooms r = some rm' →
      rm'.hostPeerId = some h ∨ rm'.hostPeerId = none := by
  intro rm' h'
  unfold helloRestore at h'
  dsimp only at h'
  simp only [refreshSession_wsConn] at h'
  cases hwp : s.wsConn sess.peerId with
  | none =>
    simp only [hwp] at h'
    simp only [refreshSession_rooms, cancelCleanupTimer_rooms] at h'
    cases hprev : sess.roomId with
    | none =>
      simp only [hprev] at h'
      rw [hrm] at h'
      cases h'
      exact Or.inl hh
    | some rid =>
      simp only [hprev] at h'
      cases hr3 : s.rooms rid with
      | none =>
        simp only [hr3] at h'
        rw [hrm] at h'
        cases h'
        exact Or.inl hh
      | some rm0 =>
        simp only [hr3] at h'
        by_cases hh0 : rm0.hostPeerId = none
        · rw [if_pos hh0] at h'
          simp only [cancelCleanupTimer_rooms] at h'
          by_cases hrr : r = rid
          · subst hrr
            rw [hrm] at hr3
            cases hr3
            rw [hh] at hh0
            exact absurd hh0 (by simp)
          · rw [updS_other _ _ _ hrr] at h'
            split at h' <;>
              (simp only [refreshSession_rooms] at h'
               rw [hrm] at h'
               cases h'
               exact Or.inl hh)
        · rw [if_neg hh0] at h'
          split at h' <;>
            (simp only [refreshSession_rooms] at h'
             rw [hrm] at h'
             cases h'
             exact Or.inl hh)
  | some oldC =>
    simp only [hwp] at h'
    by_cases hoc : oldC = c
    · rw [if_neg (by simp [hoc])] at h'
      simp only [refreshSession_rooms, cancelCleanupTimer_rooms] at h'
      cases hprev : sess.roomId with
      | none =>
        simp only [hprev] at h'
        rw [hrm] at h'
        cases h'
        exact Or.inl hh
      | some rid =>
        simp only [hprev] at h'
        cases hr3 : s.rooms rid with
        | none =>
          simp only [hr3] at h'
          rw [hrm] at h'
          cases h'
          exact Or.inl hh
        | some rm0 =>
          simp only [hr3] at h'
          by_cases hh0 : rm0.hostPeerId = none
          · rw [if_pos hh0] at h'
            simp only [cancelCleanupTimer_rooms] at h'
            by_cases hrr : r = rid
            · subst hrr
              rw [hrm] at hr3
              cases hr3
              rw [hh] at hh0
              exact absurd hh0 (by simp)
            · rw [updS_other _ _ _ hrr] at h'
              split at h' <;>
                (simp only [refreshSession_rooms] at h'
                 rw [hrm] at h'
                 cases h'
                 exact Or.inl hh)
          · rw [if_neg hh0] at h'
            split at h' <;>
              (simp only [refreshSession_rooms] at h'
               rw [hrm] at h'
               cases h'
               exact Or.inl hh)
    · rw [if_pos hoc] at h'
      simp only [refreshSession_conns] at h'
      cases hocn : s.conns oldC with
      | none =>
        simp only [hocn] at h'
        simp only [refreshSession_rooms, cancelCleanupTimer_rooms] at h'
        cases hprev : sess.roomId with
        | none =>
          simp only [hprev] at h'
          rw [hrm] at h'
          cases h'
          exact Or.inl hh
        | some rid =>
          simp only [hprev] at h'
          cases hr3 : s.rooms rid with
          | none =>
            simp only [hr3] at h'
            rw [hrm] at h'
            cases h'
            exact Or.inl hh
          | some rm0 =>
            simp only [hr3] at h'
            by_cases hh0 : rm0.hostPeerId = none
            · rw [if_pos hh0] at h'
              simp only [cancelCleanupTimer_rooms] at h'
              by_cases hrr : r = rid
              · subst hrr
                rw [hrm] at hr3
                cases hr3
                rw [hh] at hh0
                exact absurd hh0 (by simp)
              · rw [updS_other _ _ _ hrr] at h'
                split at h' <;>
                  (simp only [refreshSession_rooms] at h'
                   rw [hrm] at h'
                   cases h'
                   exact Or.inl hh)
            · rw [if_neg hh0] at h'
              split at h' <;>
                (simp only [refreshSession_rooms] at h'
                 rw [hrm] at h'
                 cases h'
                 exact Or.inl hh)
      | some ocn =>
        simp only [hocn] at h'
        simp only [refreshSession_rooms, cancelCleanupTimer_rooms] at h'
        cases hprev : sess.roomId with
        | none =>
          simp only [hprev] at h'
          rw [hrm] at h'
          cases h'
          exact Or.inl hh
        | some rid =>
          simp only [hprev] at h'
          cases hr3 : s.rooms rid with
          | none =>
            simp only [hr3] at h'
            rw [hrm] at h'
            cases h'
            exact Or.inl hh
          | some rm0 =>
            simp only [hr3] at h'
            by_cases hh0 : rm0.hostPeerId = none
            · rw [if_pos hh0] at h'
              simp only [cancelCleanupTimer_rooms] at h'
              by_cases hrr : r = rid
              · subst hrr
                rw [hrm] at hr3
                cases hr3
                rw [hh] at hh0
                exact absurd hh0 (by simp)
              · rw [updS_other _ _ _ hrr] at h'
                split at h' <;>
                  (simp only [refreshSession_rooms] at h'
                   rw [hrm] at h'
                   cases h'
                   exact Or.inl hh)
            · rw [if_neg hh0] at h'
              split at h' <;>
                (simp only [refreshSession_rooms] at h'
                 rw [hrm] at h'
                 cases h'
                 exact Or.inl hh)

theorem HPres_handleHello (s : ServerState) (c : Nat) (cn : Conn)
    (tokO : Option String) (now : Nat) (fresh : String) (r : String) (rm : Room)
    (h : String) (hrm : s.rooms r = some rm) (hh : rm.hostPeerId = some h) :
    ∀ rm', (handleHello s c cn tokO now fresh).1.rooms r = some rm' →
      rm'.hostPeerId = some h ∨ rm'.hostPeerId = none := by
  unfold handleHello
  repeat' split
  all_goals first
    | exact HPres_helloRestore s c cn _ _ now r rm h hrm hh
    | exact hostPres_keep hrm hh

theorem HPres_handleMessage (s : ServerState) (c : Nat) (m : ClientMsg)
    (now : Nat) (fresh : String) (r : String) (rm : Room) (h : String)
    (hrm : s.rooms r = some rm) (hh : rm.hostPeerId = some h)
    (hlive : hasPeer s (some h) = true) :
    ∀ rm', (handleMessage s c m now fresh).1.rooms r = some rm' →
      rm'.hostPeerId = some h ∨ rm'.hostPeerId = none := by
  unfold handleMessage
  cases hc : s.conns c with
  | none => exact hostPres_keep hrm hh
  | some cn =>
    dsimp only
    cases m with
    | invalidJson => exact hostPres_keep hrm hh
    | noType => exact hostPres_keep hrm hh
    | hello tokO =>
      dsimp only
      cases cn.peerId with
      | none =>
        exact HPres_handleHello s c cn tokO now fresh r rm h hrm hh
      | some p =>
        dsimp only
        split
        · have hrm2 : (refreshSessionO { s with rates := (checkRateLimit s.rates p now).2 }
              cn.sessionToken now).rooms r = some rm := by simpa using hrm
          have hlive2 : hasPeer (refreshSessionO { s with rates := (checkRateLimit s.rates p now).2 }
              cn.sessionToken now) (some h) = true := by
            simp only [hasPeer, refreshSessionO_peers]
            exact hlive
          exact hostPres_keep hrm2 hh
        · exact hostPres_keep hrm hh
    | heartbeat =>
      dsimp only
      cases cn.peerId with
      | none =>
        exact hostPres_keep hrm hh
      | some p =>
        dsimp only
        split
        · have hrm2 : (refreshSessionO { s with rates := (checkRateLimit s.rates p now).2 }
              cn.sessionToken now).rooms r = some rm := by simpa using hrm
          have hlive2 : hasPeer (refreshSessionO { s with rates := (checkRateLimit s.rates p now).2 }
              cn.sessionToken now) (some h) = true := by
            simp only [hasPeer, refreshSessionO_peers]
            exact hlive
          exact hostPres_keep hrm2 hh
        · exact hostPres_keep hrm hh
    | queryRoom ridO =>
      dsimp only
      cases cn.peerId with
      | none =>
        exact hostPres_keep hrm hh
      | some p =>
        dsimp only
        split
        · have hrm2 : (refreshSessionO { s with rates := (checkRateLimit s.rates p now).2 }
              cn.sessionToken now).rooms r = some rm := by simpa using hrm
          have hlive2 : hasPeer (refreshSessionO { s with rates := (checkRateLimit s.rates p now).2 }
              cn.sessionToken now) (some h) = true := by
            simp only [hasPeer, refreshSessionO_peers]
            exact hlive
          intro rm' h'
          simp only [routeActive, handleQueryRoom_state] at h'
          exact hostPres_keep hrm2 hh rm' h'
        · exact hostPres_keep hrm hh
    | registerHost ridO =>
      dsimp only
      cases cn.peerId with
      | none =>
        exact hostPres_keep hrm hh
      | some p =>
        dsimp only
        split
        · have hrm2 : (refreshSessionO { s with rates := (checkRateLimit s.rates p now).2 }
              cn.sessionToken now).rooms r = some rm := by simpa using hrm
          have hlive2 : hasPeer (refreshSessionO { s with rates := (checkRateLimit s.rates p now).2 }
              cn.sessionToken now) (some h) = true := by
            simp only [hasPeer, refreshSessionO_peers]
            exact hlive
          exact HPres_handleRegisterHost _ c p cn.sessionToken ridO now r rm h hrm2 hh hlive2
        · exact hostPres_keep hrm hh
    | claimHost ridO =>
      dsimp only
      cases cn.peerId with
      | none =>
        exact hostPres_keep hrm hh
      | some p =>
        dsimp only
        split
        · have hrm2 : (refreshSessionO { s with rates := (checkRateLimit s.rates p now).2 }
              cn.sessionToken now).rooms r = some rm := by simpa using hrm
          have hlive2 : hasPeer (refreshSessionO { s with rates := (checkRateLimit s.rates p now).2 }
              cn.sessionToken now) (some h) = true := by
            simp only [hasPeer, refreshSessionO_peers]
            exact hlive
          exact HPres_handleClaimHost _ c p cn.sessionToken ridO now r rm h hrm2 hh hlive2
        · exact hostPres_keep hrm hh
    | joinRoom ridO =>
      dsimp only
      cases cn.peerId with
      | none =>
        exact hostPres_keep hrm hh
      | some p =>
        dsimp only
        split
        · have hrm2 : (refreshSessionO { s with rates := (checkRateLimit s.rates p now).2 }
              cn.sessionToken now).rooms r = some rm := by simpa using hrm
          have hlive2 : hasPeer (refreshSessionO { s with rates := (checkRateLimit s.rates p now).2 }
              cn.sessionToken now) (some h) = true := by
            simp only [hasPeer, refreshSessionO_peers]
            exact hlive
          exact HPres_handleJoinRoom _ c p cn.sessionToken ridO r rm h hrm2 hh
        · exact hostPres_keep hrm hh
    | signal k t f pl =>
      dsimp only
      cases cn.peerId with
      | none =>
        exact hostPres_keep hrm hh
      | some p =>
        dsimp only
        split
        · have hrm2 : (refreshSessionO { s with rates := (checkRateLimit s.rates p now).2 }
              cn.sessionToken now).rooms r = some rm := by simpa using hrm
          have hlive2 : hasPeer (refreshSessionO { s with rates := (checkRateLimit s.rates p now).2 }
              cn.sessionToken now) (some h) = true := by
            simp only [hasPeer, refreshSessionO_peers]
            exact hlive
          intro rm' h'
          simp only [routeActive, handleSignal_state] at h'
          exact hostPres_keep hrm2 hh rm' h'
        · exact hostPres_keep hrm hh
    | leaveRoom =>
      dsimp only
      cases cn.peerId with
      | none =>
        exact hostPres_keep hrm hh
      | some p =>
        dsimp only
        split
        · have hrm2 : (refreshSessionO { s with rates := (checkRateLimit s.rates p now).2 }
              cn.sessionToken now).rooms r = some rm := by simpa using hrm
          have hlive2 : hasPeer (refreshSessionO { s with rates := (checkRateLimit s.rates p now).2 }
              cn.sessionToken now) (some h) = true := by
            simp only [hasPeer, refreshSessionO_peers]
            exact hlive
          exact HPres_handleLeaveRoom _ p cn.sessionToken r rm h hrm2 hh
        · exact hostPres_keep hrm hh
    | unknown t =>
      dsimp only
      cases cn.peerId with
      | none =>
        exact hostPres_keep hrm hh
      | some p =>
        dsimp only
        split
        · have hrm2 : (refreshSessionO { s with rates := (checkRateLimit s.rates p now).2 }
              cn.sessionToken now).rooms r = some rm := by simpa using hrm
          have hlive2 : hasPeer (refreshSessionO { s with rates := (checkRateLimit s.rates p now).2 }
              cn.sessionToken now) (some h) = true := by
            simp only [hasPeer, refreshSessionO_peers]
            exact hlive
          exact hostPres_keep hrm2 hh
        · exact hostPres_keep hrm hh

theorem HPres_handleConnect (s : ServerState) (c : Nat) (ip : String)
    (r : String) (rm : Room) (h : String) (hrm : s.rooms r = some rm)
    (hh : rm.hostPeerId = some h) :
    ∀ rm', (handleConnect s c ip).1.rooms r = some rm' →
      rm'.hostPeerId = some h ∨ rm'.hostPeerId = none := by
  unfold handleConnect
  repeat' split
  all_goals exact hostPres_keep hrm hh

theorem HPres_handleSessionSweep (s : ServerState) (tok : String) (now : Nat)
    (r : String) (rm : Room) (h : String) (hrm : s.rooms r = some rm)
    (hh : rm.hostPeerId = some h) :
    ∀ rm', (handleSessionSweep s tok now).1.rooms r = some rm' →
      rm'.hostPeerId = some h ∨ rm'.hostPeerId = none := by
  unfold handleSessionSweep
  repeat' split
  all_goals exact hostPres_keep hrm hh

theorem HPres_handleRateSweep (s : ServerState) (p : String) (now : Nat)
    (r : String) (rm : Room) (h : String) (hrm : s.rooms r = some rm)
    (hh : rm.hostPeerId = some h) :
    ∀ rm', (handleRateSweep s p now).1.rooms r = some rm' →
      rm'.hostPeerId = some h ∨ rm'.hostPeerId = none := by
  unfold handleRateSweep
  repeat' split
  all_goals exact hostPres_keep hrm hh

theorem step_hostPreserved (s : ServerState) (e : Event) (r : String) (rm : Room)
    (h : String) (hrm : s.rooms r = some rm) (hh : rm.hostPeerId = some h)
    (hlive : hasPeer s (some h) = true) :
    ∀ rm', (step s e).1.rooms r = some rm' →
      rm'.hostPeerId = some h ∨ rm'.hostPeerId = none := by
  cases e with
  | connect c ip => exact HPres_handleConnect s c ip r rm h hrm hh
  | message c m now fresh => exact HPres_handleMessage s c m now fresh r rm h hrm hh hlive
  | closeConn c => exact HPres_handleClose s c r rm h hrm hh
  | timerFire rid => exact HPres_handleTimerFire s rid r rm h hrm hh
  | sessionSweep tok now => exact HPres_handleSessionSweep s tok now r rm h hrm hh
  | rateSweep p now => exact HPres_handleRateSweep s p now r rm h hrm hh

/-- C1: single-host invariant. (a) The recorded host of a room is a single
field, so never are two distinct identities simultaneously recorded as host
of one room. (b) At every reachable state, a recorded host that is live in
the Transport Registry (has a registered connection in `wsConn`) is never
replaced by a *different* host in one step: every event either keeps the
room's host or clears/deletes it, because both `register-host` and
`claim-host` first check `storage.hasPeer(room.hostPeerId)` and refuse when
the recorded host is still backed by a peer record — and by the auxiliary
invariant `RegistryPeers` (proved inductive over all events) every
registry-live peer has a peer record, so the check refuses. -/
theorem c1_single_live_host (s : ServerState) (hs : Reachable s) :
    (∀ r rm h1 h2, s.rooms r = some rm → rm.hostPeerId = some h1 →
        rm.hostPeerId = some h2 → h1 = h2) ∧
    (∀ e r rm h rm', s.rooms r = some rm → rm.hostPeerId = some h →
        s.wsConn h ≠ none → (step s e).1.rooms r = some rm' →
        rm'.hostPeerId = some h ∨ rm'.hostPeerId = none) := by
  constructor
  · intro r rm h1 h2 _ hh1 hh2
    rw [hh1] at hh2
    cases hh2
    rfl
  · intro e r rm h rm' hrm hh hws h'
    have hrp := reachable_RegistryPeers hs
    have hlive : hasPeer s (some h) = true := by
      show (s.peers h).isSome = true
      apply hrp
      cases hcw : s.wsConn h with
      | none => exact absurd hcw hws
      | some c => rfl
    exact step_hostPreserved s e r rm h hrm hh hlive rm' h'

def c1Events : List Event :=
  [Event.connect 1 "ip",
   Event.message 1 (ClientMsg.hello (some demoToken)) 0 demoPeerId,
   Event.message 1 (ClientMsg.registerHost (some "abcd1234")) 1 ""]

theorem c1_single_live_host_witness :
    ({ hostPeerId := some demoPeerId, createdAt := 1 } : Room).hostPeerId
        = some demoPeerId ∨
    ({ hostPeerId := some demoPeerId, createdAt := 1 } : Room).hostPeerId
        = none :=
  (c1_single_live_host (runEvents initState c1Events)
      (runEvents_reachable c1Events initState Reachable.init)).2
    (Event.message 1 ClientMsg.heartbeat 2 "")
    "abcd1234" { hostPeerId := some demoPeerId, createdAt := 1 } demoPeerId
    { hostPeerId := some demoPeerId, createdAt := 1 }
    (by decide) (by decide) (by decide) (by decide)
